import Mathlib

/-!
# checkCpfRestApiGoCgo: the C middleware (`middleware.c`)

A shallow embedding of `treatCpf`, `convertHttpCode`, `treatResponseData`,
`write_callback` and `validateCpf`, and the properties proved about them.

Conventions of the embedding.

* A byte is a `Nat`; memory reachable from a `char *` is a `List Nat`. The C
  string stored there is the run of bytes before the first NUL (`cstr`); a list
  without a NUL is read as if the terminator followed its last byte.
* The data model is LP64: `size_t` has 64 bits and `int` has 32 bits. A
  conversion to `int` keeps the low 32 bits, read in two's complement (`toInt32`).
* libcurl is not part of the repository: every result it hands back to
  `validateCpf` is a field of `Transport`, and every call made to it is recorded
  in the returned trace of `CurlOp`s.
* Uninitialised stack arrays (`treatedCpf`, `curlOutput`) start with arbitrary
  content, supplied by `Transport` as well.
* `write_callback` is called by libcurl only, which hands over at most
  `CURL_MAX_WRITE_SIZE` (16384) bytes per call. The properties of the response
  buffer are stated for chunks of fewer than 2^31-1024 bytes, for which no `int`
  of `write_callback` overflows.
-/

set_option maxRecDepth 100000

namespace Middleware

/-! ## Constants (`#define`s) -/

/-- Bytes of a string literal. -/
def bytes (s : String) : List Nat := s.toList.map Char.toNat

/-- `SERPRO_URL`. -/
def SERPRO_URL : List Nat :=
  bytes "https://apigateway.serpro.gov.br/consulta-cpf-df-trial/v1/cpf/"

/-- `MAX_SIZE_CPF`. -/
def MAX_SIZE_CPF : Nat := 128

/-- `MAX_SIZE_URL`. -/
def MAX_SIZE_URL : Nat := 1024

/-- `MAX_SIZE_RESPONSE_JSON`. -/
def MAX_SIZE_RESPONSE_JSON : Nat := 1024

/-- `CODE_200_CPF_OK`. -/
def CODE_200_CPF_OK : Int := 200

/-- `CODE_400_INVALID_FORMAT`. -/
def CODE_400_INVALID_FORMAT : Int := 400

/-- `CODE_403_SUBJECT_REJECTED`. -/
def CODE_403_SUBJECT_REJECTED : Int := 403

/-- `CODE_500_SERVER_PROBLEM`. -/
def CODE_500_SERVER_PROBLEM : Int := 500

/-! ## C strings and machine integers -/

/-- The C string stored at the start of `mem`: the bytes before the first NUL. -/
def cstr (mem : List Nat) : List Nat := mem.takeWhile (fun b => b != 0)

/-- `strlen`, as a `size_t`. -/
def strlen (mem : List Nat) : Nat := (cstr mem).length

/-- Conversion of an unsigned value to a 32-bit `int` (low 32 bits, two's complement). -/
def toInt32 (n : Nat) : Int :=
  if n % 4294967296 < 2147483648 then Int.ofNat (n % 4294967296)
  else Int.ofNat (n % 4294967296) - 4294967296

/-- The test `c >= '0' && c <= '9'`. -/
def isDigit (c : Nat) : Bool := decide (48 ≤ c) && decide (c ≤ 57)

/-- An uninitialised array of `n` bytes whose content is `garbage`. -/
def mkBuf (n : Nat) (garbage : Nat → Nat) : List Nat := (List.range n).map garbage

/-! ## `treatCpf` -/

/-- The `for` loop of `treatCpf`: `n` iterations remain, `i` is the read index,
`pos` the write index and `treatedCpf` the destination array. Returns the final
`pos` and array. -/
def treatCpfLoop (cpf : List Nat) : Nat → Nat → Nat → List Nat → Nat × List Nat
  | 0, _, pos, treatedCpf => (pos, treatedCpf)
  | n + 1, i, pos, treatedCpf =>
    if isDigit (cpf.getD i 0) then
      treatCpfLoop cpf n (i + 1) (pos + 1) (treatedCpf.set pos (cpf.getD i 0))
    else
      treatCpfLoop cpf n (i + 1) pos treatedCpf

/-- `treatCpf(cpf, treatedCpf)`: `none` is the `NULL` return; `some buf` is the
returned pointer `treatedCpf`, `buf` being the destination array after the call. -/
def treatCpf (cpf : List Nat) (treatedCpf : List Nat) : Option (List Nat) :=
  let len : Int := toInt32 (strlen cpf)
  if len < 1 then none
  else if len > (MAX_SIZE_CPF : Int) - 1 then none
  else
    let r := treatCpfLoop cpf len.toNat 0 0 treatedCpf
    let treatedCpf := r.2.set r.1 0
    if strlen treatedCpf < 1 then none
    else some treatedCpf

/-! ## `convertHttpCode` -/

/-- `convertHttpCode(code)`: the `switch` over the remote HTTP status. -/
def convertHttpCode (code : Int) : Int :=
  if code = 200 then CODE_200_CPF_OK
  else if code = 206 then CODE_200_CPF_OK
  else if code = 400 then CODE_400_INVALID_FORMAT
  else if code = 401 then CODE_500_SERVER_PROBLEM
  else if code = 404 then CODE_403_SUBJECT_REJECTED
  else if code = 500 then CODE_500_SERVER_PROBLEM
  else CODE_500_SERVER_PROBLEM

/-! ## `treatResponseData` -/

/-- The scan of `strstr`: `k` is the offset of `haystack` from the start of the
searched string; the result is the offset of the first match. -/
def strstrAux (needle : List Nat) : List Nat → Nat → Option Nat
  | [], k => if needle.isPrefixOf [] then some k else none
  | b :: rest, k =>
    if needle.isPrefixOf (cstr (b :: rest)) then some k
    else if b = 0 then none
    else strstrAux needle rest (k + 1)

/-- `strstr(haystack, needle)`: `none` is `NULL`, `some k` is the pointer
`haystack + k`. -/
def strstr (haystack needle : List Nat) : Option Nat := strstrAux needle haystack 0

/-- The text searched for by `treatResponseData`: the string literal `"codigo"`
of the C source, that is the six letters. -/
def MARKER : List Nat := bytes "codigo"

/-- `treatResponseData(body)` with its memory read made visible: the returned
code, and the offset in `body` of the read `pos[9]` when it is executed. -/
def treatResponseDataTrace (body : List Nat) : Int × Option Nat :=
  match strstr body MARKER with
  | none => (CODE_500_SERVER_PROBLEM, none)
  | some pos =>
    if strlen (body.drop pos) < 10 then (CODE_500_SERVER_PROBLEM, none)
    else
      let status := body.getD (pos + 9) 0
      if status ≠ 48 then (CODE_403_SUBJECT_REJECTED, some (pos + 9))
      else (CODE_200_CPF_OK, some (pos + 9))

/-- `treatResponseData(body)`. -/
def treatResponseData (body : List Nat) : Int := (treatResponseDataTrace body).1

/-! ## `write_callback` -/

/-- Value of an `int` expression whose mathematical result is `x`: the low 32
bits in two's complement. Inside the `int` range this is `x`; an overflowing
`int` addition is taken to wrap around. -/
def wrap32 (x : Int) : Int := toInt32 (x % 4294967296).toNat

/-- Conversion of an `int` to `size_t` (64 bits). -/
def toSizeT (x : Int) : Nat := (x % 18446744073709551616).toNat

/-- Store of the bytes `src` at `dst + off`. A store past the end of `dst`
shows as a result longer than `dst`. -/
def writeAt (dst : List Nat) (off : Nat) (src : List Nat) : List Nat :=
  dst.take off ++ src ++ dst.drop (off + src.length)

/-- The first `n` bytes at `src`. -/
def readBytes (src : List Nat) (n : Nat) : List Nat := (List.range n).map (fun i => src.getD i 0)

/-- `write_callback(ptr, size, nmemb, userdata)`: a `NULL` pointer is `none`,
`ptr` holds the bytes of the chunk, `size` and `nmemb` are `size_t` values.
Returns the `size_t` result and the memory at `userdata` after the call. A
store at a negative index falls outside the modelled array and is dropped. -/
def write_callback (ptr : Option (List Nat)) (size nmemb : Nat) (userdata : Option (List Nat)) :
    Nat × Option (List Nat) :=
  let received : Int := toInt32 (size * nmemb % 18446744073709551616)
  match userdata, ptr with
  | some buf, some data =>
    if received > 0 then
      let current_size : Int := toInt32 (strlen buf)
      if wrap32 (current_size + received) < (MAX_SIZE_RESPONSE_JSON : Int) then
        let buf := writeAt buf current_size.toNat (readBytes data received.toNat)
        let idx := wrap32 (current_size + received)
        let buf := if 0 ≤ idx then writeAt buf idx.toNat [0] else buf
        (toSizeT received, some buf)
      else (toSizeT received, some buf)
    else (toSizeT received, some buf)
  | _, _ => (toSizeT received, userdata)

/-! ## `validateCpf` and the transport -/

/-- Options passed to `curl_easy_setopt`. -/
inductive CurlOption
  | HTTPAUTH | FAILONERROR | NOSIGNAL | DNS_CACHE_TIMEOUT
  | WRITEFUNCTION | WRITEDATA | URL | HTTPHEADER
  deriving DecidableEq

/-- Calls made to libcurl. `easy_setopt_url` is the `CURLOPT_URL` call with the
composed URL buffer it passes. -/
inductive CurlOp
  | global_init | easy_init | easy_reset
  | easy_setopt (option : CurlOption)
  | easy_setopt_url (completeUrl : List Nat)
  | slist_append | easy_perform | slist_free_all | easy_getinfo
  deriving DecidableEq

/-- One invocation of `write_callback` made by libcurl during `curl_easy_perform`. -/
structure Chunk where
  ptr : Option (List Nat)
  size : Nat
  nmemb : Nat

/-- The `static` variables of `validateCpf`: `global` and whether `curl` is non-`NULL`. -/
structure Statics where
  global : Bool
  curl : Bool
  deriving DecidableEq

/-- Everything one call of `validateCpf` receives from outside the repository. -/
structure Transport where
  /-- Initial content of the array `treatedCpf`. -/
  treatedCpfInit : Nat → Nat
  /-- Initial content of the array `curlOutput`. -/
  curlOutputInit : Nat → Nat
  /-- Initial content of the array `completeUrl`. -/
  completeUrlInit : Nat → Nat
  /-- Result of `curl_global_init`. -/
  global_init : Int
  /-- Whether `curl_easy_init` returns a handle. -/
  easy_init : Bool
  /-- Whether `curl_easy_setopt` returns `CURLE_OK` for the option. -/
  easy_setopt : CurlOption → Bool
  /-- Whether `curl_slist_append` returns a list. -/
  slist_append : Bool
  /-- The invocations of `write_callback` made by `curl_easy_perform`. -/
  chunks : List Chunk
  /-- Result of `curl_easy_perform`. -/
  easy_perform : Int
  /-- Whether `curl_easy_getinfo` returns `CURLE_OK`. -/
  easy_getinfo : Bool
  /-- Value of `http_code` after `curl_easy_getinfo`. -/
  response_code : Int

/-- Result of one call of `validateCpf`: the returned code, the `static`
variables after the call, and the calls made to libcurl, in order. -/
structure Outcome where
  code : Int
  statics : Statics
  ops : List CurlOp
  deriving DecidableEq

/-- `strcpy(dst, src)`. -/
def strcpy (dst src : List Nat) : List Nat := writeAt dst 0 (cstr src ++ [0])

/-- `strcat(dst, src)`. -/
def strcat (dst src : List Nat) : List Nat := writeAt dst (strlen dst) (cstr src ++ [0])

/-- The array `curlOutput` after `curl_easy_perform` has made its invocations of
`write_callback` with `userdata = &curlOutput`. -/
def performWrites (chunks : List Chunk) (curlOutput : List Nat) : List Nat :=
  chunks.foldl
    (fun buf c => ((write_callback c.ptr c.size c.nmemb (some buf)).2).getD buf) curlOutput

/-- `validateCpf(cpf)`, from the `static` state `st` and with transport `t`. -/
def validateCpf (st : Statics) (t : Transport) (cpf : List Nat) : Outcome :=
  match treatCpf cpf (mkBuf MAX_SIZE_CPF t.treatedCpfInit) with
  | none => ⟨CODE_400_INVALID_FORMAT, st, []⟩
  | some treatedCpf =>
    -- Initialization
    if st.global = false ∧ t.global_init ≠ 0 then
      ⟨CODE_500_SERVER_PROBLEM, st, [CurlOp.global_init]⟩
    else
      let ops0 : List CurlOp := if st.global then [] else [CurlOp.global_init]
      let st1 : Statics := ⟨true, st.curl⟩
      if st.curl = false ∧ t.easy_init = false then
        ⟨CODE_500_SERVER_PROBLEM, st1, ops0 ++ [CurlOp.easy_init]⟩
      else
        let ops1 := ops0 ++ [if st.curl then CurlOp.easy_reset else CurlOp.easy_init]
        let st2 : Statics := ⟨true, true⟩
        -- Setting Curl properties (a failure is only logged)
        let ops2 := ops1 ++ [CurlOp.easy_setopt .HTTPAUTH, CurlOp.easy_setopt .FAILONERROR,
          CurlOp.easy_setopt .NOSIGNAL, CurlOp.easy_setopt .DNS_CACHE_TIMEOUT]
        -- Setting Function to get the returned Body
        let ops3 := ops2 ++ [CurlOp.easy_setopt .WRITEFUNCTION]
        if t.easy_setopt .WRITEFUNCTION = false then ⟨CODE_500_SERVER_PROBLEM, st2, ops3⟩
        else
          let curlOutput := mkBuf MAX_SIZE_RESPONSE_JSON t.curlOutputInit
          let ops4 := ops3 ++ [CurlOp.easy_setopt .WRITEDATA]
          if t.easy_setopt .WRITEDATA = false then ⟨CODE_500_SERVER_PROBLEM, st2, ops4⟩
          else
            -- Composing URL
            let completeUrl :=
              strcat (strcpy (mkBuf MAX_SIZE_URL t.completeUrlInit) SERPRO_URL) treatedCpf
            let ops5 := ops4 ++ [CurlOp.easy_setopt_url completeUrl]
            if t.easy_setopt .URL = false then ⟨CODE_500_SERVER_PROBLEM, st2, ops5⟩
            else
              -- Setting Authentication TOKEN (a failure is only logged)
              let ops6 := ops5 ++ [CurlOp.slist_append] ++
                (if t.slist_append then [CurlOp.easy_setopt .HTTPHEADER] else [])
              -- Actually calling the URL (the result `res` is not read)
              let curlOutput := performWrites t.chunks curlOutput
              let ops7 := ops6 ++ [CurlOp.easy_perform] ++
                (if t.slist_append then [CurlOp.slist_free_all] else [])
              -- Treating Response HTTP Code
              let ops8 := ops7 ++ [CurlOp.easy_getinfo]
              if t.easy_getinfo = false then ⟨CODE_500_SERVER_PROBLEM, st2, ops8⟩
              else
                let http_code := convertHttpCode t.response_code
                if http_code ≠ CODE_200_CPF_OK then ⟨http_code, st2, ops8⟩
                else
                  -- Treating Response JSON data
                  ⟨treatResponseData curlOutput, st2, ops8⟩

/-! ## Notions used to state the properties -/

/-- The digits among the bytes of `l`, in order. -/
def digitsOf (l : List Nat) : List Nat := l.filter isDigit

/-- An input of 2^32+1 characters: the digit `'1'` followed by 2^32 letters `'a'`. -/
def oversizeCpf : List Nat := 49 :: List.replicate 4294967296 97

/-- The text `needle` occurs in `text` at offset `k`, and at no smaller offset. -/
def FirstOcc (needle text : List Nat) (k : Nat) : Prop :=
  needle <+: text.drop k ∧ ∀ i, i < k → ¬ needle <+: text.drop i

/-- The text `needle` occurs nowhere in `text`. -/
def Absent (needle text : List Nat) : Prop := ∀ i, ¬ needle <+: text.drop i

/-- Start of a body of the shape `{"situacao":{"codigo":"0",...}}`. -/
def regularHead : List Nat := bytes "\x7b\"situacao\":\x7b\"codigo\":\"0\""

/-- Start of a body of the shape `{"situacao":{"codigo":"1",...}}`. -/
def irregularHead : List Nat := bytes "\x7b\"situacao\":\x7b\"codigo\":\"1\""

/-- The conditions under which the request part of `validateCpf` gives up with
`CODE_500_SERVER_PROBLEM` before the response status is mapped: a failed
`curl_global_init` or `curl_easy_init` (when the call is made), a failed
`curl_easy_setopt` of `WRITEFUNCTION`, `WRITEDATA` or `URL`, or a failed
`curl_easy_getinfo`. -/
def executorFails (st : Statics) (t : Transport) : Bool :=
  (!st.global && decide (t.global_init ≠ 0)) || (!st.curl && !t.easy_init) ||
  !t.easy_setopt .WRITEFUNCTION || !t.easy_setopt .WRITEDATA || !t.easy_setopt .URL ||
  !t.easy_getinfo

/-- The content of `curlOutput` once `curl_easy_perform` has returned. -/
def capturedBody (t : Transport) : List Nat :=
  performWrites t.chunks (mkBuf MAX_SIZE_RESPONSE_JSON t.curlOutputInit)

/-- The sequence of the Validate Entry Point as the specification words it:
sanitizer failure gives 400; executor failure gives 500; a mapped status other
than 200 is returned as it is; otherwise the body extractor decides. -/
def validateSpec (sanitized : Option (List Nat)) (executed : Option (Int × List Nat)) : Int :=
  match sanitized with
  | none => 400
  | some _ =>
    match executed with
    | none => 500
    | some (status, body) =>
      if convertHttpCode status ≠ 200 then convertHttpCode status
      else treatResponseData body

/-- A transport on which every call succeeds, which delivers `chunks` and
reports the HTTP status `status`; all uninitialised arrays hold zeros. -/
def okTransport (status : Int) (chunks : List Chunk) : Transport where
  treatedCpfInit := fun _ => 0
  curlOutputInit := fun _ => 0
  completeUrlInit := fun _ => 0
  global_init := 0
  easy_init := true
  easy_setopt := fun _ => true
  slist_append := true
  chunks := chunks
  easy_perform := 0
  easy_getinfo := true
  response_code := status

/-- The transport `okTransport 404 []`, except that `curl_easy_perform` returns
`CURLE_HTTP_RETURNED_ERROR` (22). -/
def performFailedTransport : Transport :=
  { okTransport 404 [] with easy_perform := 22 }

/-- The transport `okTransport 404 []`, except that `curl_slist_append` returns `NULL`. -/
def headerFailedTransport : Transport :=
  { okTransport 404 [] with slist_append := false }

/-- One chunk holding the text `codigo":"0"`, as libcurl delivers it (`size` is 1). -/
def regularChunk : Chunk := ⟨some (bytes "codigo\":\"0\""), 1, 11⟩

/-- The array `curlOutput` holding the empty string: every byte is NUL. -/
def emptyBuffer : List Nat := mkBuf MAX_SIZE_RESPONSE_JSON (fun _ => 0)

/-- The chunk libcurl delivers for the bytes `data`: `size` is 1 and `nmemb`
is the number of bytes. -/
def chunkOf (data : List Nat) : Chunk := ⟨some data, 1, data.length⟩

/-- The marker as the specification words it: the text `codigo` with its
surrounding quotation marks. -/
def QUOTED_MARKER : List Nat := bytes "\"codigo\""

/-- A transport on which every call succeeds, which reports status 200 and
delivers `chunks`, while the array `curlOutput` starts with the bytes of
`codigo":"0"` followed by NULs, as a previous response leaves them on the stack. -/
def staleTransport (chunks : List Chunk) : Transport :=
  { okTransport 200 chunks with
    curlOutputInit := fun i => (bytes "codigo\":\"0\"").getD i 0 }

/-- A sequential run of calls of `validateCpf` in one process: each call starts
from the `static` variables left by the previous one. -/
def runCalls : Statics → List (Transport × List Nat) → List Outcome
  | _, [] => []
  | st, (t, cpf) :: rest =>
    validateCpf st t cpf :: runCalls (validateCpf st t cpf).statics rest

/-- The call invoked `curl_global_init` and left the flag `global` set, that is,
the initialization it made succeeded. -/
def initSucceeded (o : Outcome) : Bool :=
  decide (CurlOp.global_init ∈ o.ops) && o.statics.global

/-! ## Lemmas on C strings -/

theorem cstr_eq_take (mem : List Nat) : cstr mem = mem.take (strlen mem) := by
  unfold strlen cstr
  induction mem with
  | nil => simp
  | cons b t ih =>
    by_cases hb : b = 0
    · simp [List.takeWhile_cons, hb]
    · simp [List.takeWhile_cons, hb]
      exact ih

theorem strlen_le (mem : List Nat) : strlen mem ≤ mem.length := by
  unfold strlen cstr
  exact (List.takeWhile_sublist _).length_le

theorem cstr_nonzero (mem : List Nat) : ∀ b ∈ cstr mem, b ≠ 0 := by
  intro b hb
  have := List.mem_takeWhile_imp hb
  simpa using this

theorem cstr_of_nonzero (l : List Nat) (h : ∀ b ∈ l, b ≠ 0) : cstr l = l := by
  unfold cstr
  rw [List.takeWhile_eq_self_iff]
  intro b hb
  simpa using h b hb

theorem cstr_append_zero (l rest : List Nat) (h : ∀ b ∈ l, b ≠ 0) :
    cstr (l ++ 0 :: rest) = l := by
  unfold cstr
  induction l with
  | nil => simp [List.takeWhile_cons]
  | cons b t ih =>
    have hb : b ≠ 0 := h b (by simp)
    simp [List.takeWhile_cons, hb]
    exact ih (fun x hx => h x (by simp [hx]))

theorem cstr_set_zero (buf : List Nat) (k : Nat) (hk : k < buf.length)
    (h : ∀ b ∈ buf.take k, b ≠ 0) : cstr (buf.set k 0) = buf.take k := by
  have hsplit : buf.set k 0 = buf.take k ++ 0 :: buf.drop (k + 1) := by
    rw [List.set_eq_take_append_cons_drop]
    simp [hk]
  rw [hsplit]
  exact cstr_append_zero _ _ h

theorem isDigit_ne_zero {c : Nat} (h : isDigit c = true) : c ≠ 0 := by
  unfold isDigit at h
  simp at h
  omega

/-! ## Lemmas on `treatCpf` -/

theorem digitsOf_nonzero (l : List Nat) : ∀ b ∈ digitsOf l, b ≠ 0 := by
  intro b hb
  unfold digitsOf at hb
  exact isDigit_ne_zero (List.mem_filter.mp hb).2

theorem digitsOf_length_le (l : List Nat) : (digitsOf l).length ≤ l.length :=
  List.length_filter_le _ _

theorem take_drop_succ (cpf : List Nat) (i n : Nat) (h : i < cpf.length) :
    (cpf.drop i).take (n + 1) = cpf.getD i 0 :: (cpf.drop (i + 1)).take n := by
  rw [List.drop_eq_getElem_cons h, List.take_succ_cons]
  simp [List.getD_eq_getElem?_getD, List.getElem?_eq_getElem h]

theorem treatCpfLoop_digit (cpf : List Nat) (n i pos : Nat) (buf : List Nat)
    (h : isDigit (cpf.getD i 0) = true) :
    treatCpfLoop cpf (n + 1) i pos buf
      = treatCpfLoop cpf n (i + 1) (pos + 1) (buf.set pos (cpf.getD i 0)) := by
  rw [treatCpfLoop, if_pos h]

theorem treatCpfLoop_other (cpf : List Nat) (n i pos : Nat) (buf : List Nat)
    (h : ¬ isDigit (cpf.getD i 0) = true) :
    treatCpfLoop cpf (n + 1) i pos buf = treatCpfLoop cpf n (i + 1) pos buf := by
  rw [treatCpfLoop, if_neg h]

theorem digitsOf_cons_digit (c : Nat) (l : List Nat) (h : isDigit c = true) :
    digitsOf (c :: l) = c :: digitsOf l := by
  unfold digitsOf
  exact List.filter_cons_of_pos h

theorem digitsOf_cons_other (c : Nat) (l : List Nat) (h : ¬ isDigit c = true) :
    digitsOf (c :: l) = digitsOf l := by
  unfold digitsOf
  exact List.filter_cons_of_neg h

theorem take_succ_set (buf : List Nat) (pos c : Nat) (hpos : pos < buf.length) :
    (buf.set pos c).take (pos + 1) = buf.take pos ++ [c] := by
  induction buf generalizing pos with
  | nil => simp at hpos
  | cons b t ih =>
    cases pos with
    | zero => simp
    | succ p =>
      have hp : p < t.length := by simpa using hpos
      simp [List.set_cons_succ, List.take_succ_cons, ih p hp]

/-- Invariant of the loop of `treatCpf`: it appends to the first `pos` bytes of
the destination the digits among `cpf[i .. i+n)`, and keeps the array size. -/
theorem treatCpfLoop_spec (cpf : List Nat) :
    ∀ (n i pos : Nat) (buf : List Nat), pos + n ≤ buf.length →
      (treatCpfLoop cpf n i pos buf).2.take (treatCpfLoop cpf n i pos buf).1
          = buf.take pos ++ digitsOf ((cpf.drop i).take n)
        ∧ (treatCpfLoop cpf n i pos buf).1 = pos + (digitsOf ((cpf.drop i).take n)).length
        ∧ (treatCpfLoop cpf n i pos buf).2.length = buf.length := by
  intro n
  induction n with
  | zero =>
    intro i pos buf _
    simp [treatCpfLoop, digitsOf]
  | succ n ih =>
    intro i pos buf hlen
    by_cases hi : i < cpf.length
    · rw [take_drop_succ cpf i n hi]
      by_cases hd : isDigit (cpf.getD i 0) = true
      · rw [treatCpfLoop_digit cpf n i pos buf hd, digitsOf_cons_digit _ _ hd]
        have hpos : pos < buf.length := by omega
        obtain ⟨h1, h2, h3⟩ := ih (i + 1) (pos + 1) (buf.set pos (cpf.getD i 0))
          (by rw [List.length_set]; omega)
        refine ⟨?_, ?_, ?_⟩
        · rw [h1, take_succ_set buf pos _ hpos, List.append_assoc, List.singleton_append]
        · rw [h2, List.length_cons]; omega
        · rw [h3, List.length_set]
      · rw [treatCpfLoop_other cpf n i pos buf hd, digitsOf_cons_other _ _ hd]
        exact ih (i + 1) pos buf (by omega)
    · have hi2 : cpf.length ≤ i := by omega
      have hget : cpf.getD i 0 = 0 := by
        simp [List.getD_eq_getElem?_getD, List.getElem?_eq_none hi2]
      have hd : ¬ isDigit (cpf.getD i 0) = true := by
        rw [hget]; decide
      rw [treatCpfLoop_other cpf n i pos buf hd]
      have e1 : cpf.drop i = [] := List.drop_eq_nil_of_le hi2
      have e2 : cpf.drop (i + 1) = [] := List.drop_eq_nil_of_le (by omega)
      have h := ih (i + 1) pos buf (by omega)
      rw [e2] at h
      rw [e1]
      simpa using h

theorem toInt32_of_lt (n : Nat) (h : n < 2147483648) : toInt32 n = (n : Int) := by
  unfold toInt32
  have hm : n % 4294967296 = n := Nat.mod_eq_of_lt (by omega)
  rw [hm, if_pos h]
  rfl

/-- What `treatCpf` computes, for every input: with `len` the 32-bit value of
`strlen(cpf)`, the call fails when `len` is outside `1 .. MAX_SIZE_CPF-1` or no
digit occurs among the first `len` bytes, and otherwise leaves those digits, in
order, as the string in `treatedCpf`. -/
theorem treatCpf_eq (cpf buf : List Nat) (hbuf : MAX_SIZE_CPF ≤ buf.length) :
    (treatCpf cpf buf).map cstr =
      if toInt32 (strlen cpf) < 1 ∨ toInt32 (strlen cpf) > 127 then none
      else if digitsOf (cpf.take (toInt32 (strlen cpf)).toNat) = [] then none
      else some (digitsOf (cpf.take (toInt32 (strlen cpf)).toNat)) := by
  unfold treatCpf
  simp only [MAX_SIZE_CPF] at hbuf ⊢
  generalize toInt32 (strlen cpf) = len
  by_cases h1 : len < 1
  · simp [h1]
  · by_cases h2 : len > 127
    · have h2b : len > ((128 : Nat) : Int) - 1 := by omega
      simp [h1, h2, h2b]
    · have h2b : ¬ len > ((128 : Nat) : Int) - 1 := by omega
      have h12 : ¬ (len < 1 ∨ len > 127) := by omega
      rw [if_neg h1, if_neg h2b, if_neg h12]
      have hn : len.toNat ≤ 127 := by omega
      obtain ⟨e1, e2, e3⟩ := treatCpfLoop_spec cpf len.toNat 0 0 buf (by omega)
      simp only [List.drop_zero, List.take_zero, List.nil_append, Nat.zero_add] at e1 e2
      have hdl := digitsOf_length_le (cpf.take len.toNat)
      have htl : (cpf.take len.toNat).length ≤ 127 := by
        rw [List.length_take]; omega
      have hc := cstr_set_zero (treatCpfLoop cpf len.toNat 0 0 buf).2
        (treatCpfLoop cpf len.toNat 0 0 buf).1
        (by rw [e3, e2]; omega)
        (by rw [e1]; exact digitsOf_nonzero _)
      rw [e1] at hc
      have hs : strlen ((treatCpfLoop cpf len.toNat 0 0 buf).2.set
          (treatCpfLoop cpf len.toNat 0 0 buf).1 0)
          = (digitsOf (cpf.take len.toNat)).length := congrArg List.length hc
      by_cases hd : digitsOf (cpf.take len.toNat) = []
      · have hlt : strlen ((treatCpfLoop cpf len.toNat 0 0 buf).2.set
            (treatCpfLoop cpf len.toNat 0 0 buf).1 0) < 1 := by
          rw [hs, hd]; decide
        simp only [if_pos hlt, if_pos hd, Option.map_none']
      · have hpos : ¬ strlen ((treatCpfLoop cpf len.toNat 0 0 buf).2.set
            (treatCpfLoop cpf len.toNat 0 0 buf).1 0) < 1 := by
          have := List.length_pos.mpr hd
          rw [hs]; omega
        simp only [if_neg hpos, if_neg hd, Option.map_some', hc]

theorem mkBuf_length (n : Nat) (g : Nat → Nat) : (mkBuf n g).length = n := by
  simp [mkBuf]

theorem isDigit_iff (c : Nat) : isDigit c = true ↔ 48 ≤ c ∧ c ≤ 57 := by
  simp [isDigit]

theorem digitsOf_eq_filter (l : List Nat) :
    digitsOf l = l.filter (fun c => decide (48 ≤ c ∧ c ≤ 57)) := by
  unfold digitsOf
  congr 1
  funext c
  simp [isDigit]

theorem digitsOf_eq_nil_iff (l : List Nat) :
    digitsOf l = [] ↔ ¬ ∃ c ∈ l, 48 ≤ c ∧ c ≤ 57 := by
  unfold digitsOf
  rw [List.filter_eq_nil_iff]
  constructor
  · rintro h ⟨c, hc, hd⟩
    exact h c hc ((isDigit_iff c).mpr hd)
  · intro h c hc hd
    exact h ⟨c, hc, (isDigit_iff c).mp hd⟩

/-- For inputs shorter than 2^31 bytes the 32-bit `len` is the true length, and
`treatCpf` fails exactly on the empty string, a string longer than
`MAX_SIZE_CPF-1`, or a string without a digit; otherwise it leaves the digits. -/
theorem treatCpf_of_lt (cpf buf : List Nat) (hbuf : MAX_SIZE_CPF ≤ buf.length)
    (hlt : strlen cpf < 2147483648) :
    (treatCpf cpf buf).map cstr =
      if strlen cpf < 1 ∨ strlen cpf > 127 ∨ ¬ (∃ c ∈ cstr cpf, 48 ≤ c ∧ c ≤ 57) then none
      else some (digitsOf (cstr cpf)) := by
  rw [treatCpf_eq cpf buf hbuf, toInt32_of_lt _ hlt, Int.toNat_ofNat, ← cstr_eq_take]
  by_cases h1 : strlen cpf < 1 ∨ strlen cpf > 127
  · have h1i : ((strlen cpf : Nat) : Int) < 1 ∨ ((strlen cpf : Nat) : Int) > 127 := by omega
    have h1c : strlen cpf < 1 ∨ strlen cpf > 127 ∨ ¬ (∃ c ∈ cstr cpf, 48 ≤ c ∧ c ≤ 57) := by
      tauto
    rw [if_pos h1i, if_pos h1c]
  · have h1i : ¬ (((strlen cpf : Nat) : Int) < 1 ∨ ((strlen cpf : Nat) : Int) > 127) := by
      omega
    rw [if_neg h1i]
    by_cases hd : digitsOf (cstr cpf) = []
    · have h1c : strlen cpf < 1 ∨ strlen cpf > 127 ∨ ¬ (∃ c ∈ cstr cpf, 48 ≤ c ∧ c ≤ 57) :=
        Or.inr (Or.inr ((digitsOf_eq_nil_iff _).mp hd))
      rw [if_pos hd, if_pos h1c]
    · have h1c : ¬ (strlen cpf < 1 ∨ strlen cpf > 127 ∨
          ¬ (∃ c ∈ cstr cpf, 48 ≤ c ∧ c ≤ 57)) := by
        rintro (h | h | h)
        · exact h1 (Or.inl h)
        · exact h1 (Or.inr h)
        · exact hd ((digitsOf_eq_nil_iff _).mpr h)
      rw [if_neg hd, if_neg h1c]

/-! ## Sanitizer: claims C1 and C2 -/

/-- C1: for every input string of at most `MAX_SIZE_CPF-1` (127) characters
that contains an ASCII digit, `treatCpf` succeeds and the string it leaves in
`treatedCpf` is exactly the subsequence of the input's characters in `'0'..'9'`,
in their original order, whatever the destination array held before. -/
theorem treatCpf_digit_subsequence (cpf buf : List Nat) (hbuf : buf.length = MAX_SIZE_CPF)
    (hlen : strlen cpf ≤ MAX_SIZE_CPF - 1) (hdig : ∃ c ∈ cstr cpf, 48 ≤ c ∧ c ≤ 57) :
    (treatCpf cpf buf).map cstr
      = some ((cstr cpf).filter (fun c => decide (48 ≤ c ∧ c ≤ 57))) := by
  simp only [MAX_SIZE_CPF] at hlen
  rw [treatCpf_of_lt cpf buf (by rw [hbuf]) (by omega), ← digitsOf_eq_filter]
  have hpos : 0 < strlen cpf := by
    obtain ⟨c, hc, _⟩ := hdig
    exact List.length_pos_of_mem hc
  have hn : ¬ (strlen cpf < 1 ∨ strlen cpf > 127 ∨
      ¬ (∃ c ∈ cstr cpf, 48 ≤ c ∧ c ≤ 57)) := by
    rintro (h | h | h)
    · omega
    · omega
    · exact h hdig
  rw [if_neg hn]

/-- C1, at the input `"1a2"` with a destination array full of the byte 7. -/
theorem treatCpf_digit_subsequence_witness :
    (treatCpf [49, 97, 50] (mkBuf MAX_SIZE_CPF (fun _ => 7))).map cstr
      = some ((cstr [49, 97, 50]).filter (fun c => decide (48 ≤ c ∧ c ≤ 57))) :=
  treatCpf_digit_subsequence [49, 97, 50] (mkBuf MAX_SIZE_CPF (fun _ => 7))
    (mkBuf_length _ _) (by decide) ⟨49, by decide, by decide⟩

theorem oversizeCpf_cstr : cstr oversizeCpf = oversizeCpf := by
  apply cstr_of_nonzero
  intro b hb
  unfold oversizeCpf at hb
  rcases List.mem_cons.mp hb with h | h
  · omega
  · have := List.eq_of_mem_replicate h
    omega

theorem oversizeCpf_strlen : strlen oversizeCpf = 4294967297 := by
  unfold strlen
  rw [oversizeCpf_cstr]
  unfold oversizeCpf
  rw [List.length_cons, List.length_replicate]

theorem toInt32_oversize : toInt32 4294967297 = 1 := by decide

theorem treatCpf_oversize (buf : List Nat) (hbuf : MAX_SIZE_CPF ≤ buf.length) :
    (treatCpf oversizeCpf buf).map cstr = some [49] := by
  rw [treatCpf_eq _ _ hbuf, oversizeCpf_strlen, toInt32_oversize]
  have ht : List.take (1 : Int).toNat oversizeCpf = [49] := by
    unfold oversizeCpf
    show List.take 1 _ = _
    rw [List.take_succ_cons, List.take_zero]
  rw [ht]
  decide

/-- C2, at the failing input: `treatCpf` accepts the string of 2^32+1 characters
`oversizeCpf`, far longer than `MAX_SIZE_CPF-1`, and leaves `"1"` as the result,
because the length is stored in a 32-bit `int`. -/
theorem treatCpf_accepts_oversize :
    strlen oversizeCpf = 4294967297 ∧
    (treatCpf oversizeCpf (mkBuf MAX_SIZE_CPF (fun _ => 0))).map cstr = some [49] :=
  ⟨oversizeCpf_strlen,
   treatCpf_oversize (mkBuf MAX_SIZE_CPF (fun _ => 0)) (le_of_eq (mkBuf_length _ _).symm)⟩

/-! ## Status code mapper: claim C4 -/

/-- C4: `convertHttpCode` is defined on every integer and follows the table:
200 and 206 give 200, 400 gives 400, 401 gives 500, 404 gives 403, 500 gives
500, and every other integer gives 500. -/
theorem convertHttpCode_table :
    convertHttpCode 200 = 200 ∧ convertHttpCode 206 = 200 ∧ convertHttpCode 400 = 400 ∧
    convertHttpCode 401 = 500 ∧ convertHttpCode 404 = 403 ∧ convertHttpCode 500 = 500 ∧
    ∀ c : Int, c ≠ 200 → c ≠ 206 → c ≠ 400 → c ≠ 401 → c ≠ 404 → c ≠ 500 →
      convertHttpCode c = 500 := by
  refine ⟨by decide, by decide, by decide, by decide, by decide, by decide, ?_⟩
  intro c h1 h2 h3 h4 h5 h6
  simp [convertHttpCode, h1, h2, h3, h4, h5, h6, CODE_500_SERVER_PROBLEM]

/-- C4, at the codes 0 and -1. -/
theorem convertHttpCode_table_witness :
    convertHttpCode 0 = 500 ∧ convertHttpCode (-1) = 500 :=
  ⟨convertHttpCode_table.2.2.2.2.2.2 0 (by decide) (by decide) (by decide) (by decide)
      (by decide) (by decide),
   convertHttpCode_table.2.2.2.2.2.2 (-1) (by decide) (by decide) (by decide) (by decide)
      (by decide) (by decide)⟩

/-! ## Lemmas on `strstr` -/

theorem cstr_nil : cstr [] = [] := rfl

theorem cstr_cons_zero (rest : List Nat) : cstr (0 :: rest) = [] := by
  simp [cstr, List.takeWhile_cons]

theorem cstr_cons_ne (b : Nat) (rest : List Nat) (h : b ≠ 0) :
    cstr (b :: rest) = b :: cstr rest := by
  simp [cstr, List.takeWhile_cons, h]

theorem firstOcc_unique {needle text : List Nat} {j k : Nat}
    (hj : FirstOcc needle text j) (hk : FirstOcc needle text k) : j = k := by
  rcases Nat.lt_trichotomy j k with h | h | h
  · exact absurd hj.1 (hk.2 j h)
  · exact h
  · exact absurd hk.1 (hj.2 k h)

theorem firstOcc_le_length {needle text : List Nat} {k : Nat}
    (h : FirstOcc needle text k) : k ≤ text.length := by
  by_contra hlt
  have hk : text.length ≤ k := by omega
  have hnil : text.drop k = [] := List.drop_eq_nil_of_le hk
  have hn : needle = [] := by
    have := h.1
    rw [hnil] at this
    exact List.prefix_nil.mp this
  have h0 : 0 < k := by omega
  exact h.2 0 h0 (by rw [hn]; exact List.nil_prefix)

/-- What the scan of `strstr` returns: the offset of the first occurrence. -/
theorem strstrAux_some (needle : List Nat) :
    ∀ (hay : List Nat) (k0 r : Nat), strstrAux needle hay k0 = some r →
      ∃ j, r = k0 + j ∧ FirstOcc needle (cstr hay) j := by
  intro hay
  induction hay with
  | nil =>
    intro k0 r h
    simp only [strstrAux] at h
    split at h
    · rename_i hp
      refine ⟨0, by simpa using h.symm, ?_, fun i hi => absurd hi (Nat.not_lt_zero i)⟩
      simpa [cstr_nil, List.isPrefixOf_iff_prefix] using hp
    · exact absurd h (by simp)
  | cons b rest ih =>
    intro k0 r h
    simp only [strstrAux] at h
    split at h
    · rename_i hp
      refine ⟨0, by simpa using h.symm, ?_, fun i hi => absurd hi (Nat.not_lt_zero i)⟩
      simpa [List.isPrefixOf_iff_prefix] using hp
    · rename_i hp
      split at h
      · exact absurd h (by simp)
      · rename_i hb
        obtain ⟨j, hj, hocc⟩ := ih (k0 + 1) r h
        refine ⟨j + 1, by omega, ?_, ?_⟩
        · rw [cstr_cons_ne b rest hb, List.drop_succ_cons]
          exact hocc.1
        · intro i hi
          cases i with
          | zero =>
            simpa [List.isPrefixOf_iff_prefix] using hp
          | succ i =>
            rw [cstr_cons_ne b rest hb, List.drop_succ_cons]
            exact hocc.2 i (by omega)

theorem strstrAux_none (needle : List Nat) :
    ∀ (hay : List Nat) (k0 : Nat), strstrAux needle hay k0 = none →
      Absent needle (cstr hay) := by
  intro hay
  induction hay with
  | nil =>
    intro k0 h i
    simp only [strstrAux] at h
    split at h
    · exact absurd h (by simp)
    · rename_i hp
      simpa [cstr_nil, List.isPrefixOf_iff_prefix] using hp
  | cons b rest ih =>
    intro k0 h i
    simp only [strstrAux] at h
    split at h
    · exact absurd h (by simp)
    · rename_i hp
      split at h
      · rename_i hb
        rw [hb, cstr_cons_zero] at hp ⊢
        simpa [List.isPrefixOf_iff_prefix] using hp
      · rename_i hb
        cases i with
        | zero => simpa [List.isPrefixOf_iff_prefix] using hp
        | succ i =>
          rw [cstr_cons_ne b rest hb, List.drop_succ_cons]
          exact ih (k0 + 1) h i

theorem strstr_eq_some_iff (hay needle : List Nat) (k : Nat) :
    strstr hay needle = some k ↔ FirstOcc needle (cstr hay) k := by
  unfold strstr
  constructor
  · intro h
    obtain ⟨j, hj, hocc⟩ := strstrAux_some needle hay 0 k h
    have : k = j := by omega
    rw [this]; exact hocc
  · intro hk
    cases hres : strstrAux needle hay 0 with
    | none => exact absurd hk.1 (strstrAux_none needle hay 0 hres k)
    | some r =>
      obtain ⟨j, hj, hocc⟩ := strstrAux_some needle hay 0 r hres
      have hjk := firstOcc_unique hocc hk
      rw [hj, hjk, Nat.zero_add]

theorem strstr_eq_none_iff (hay needle : List Nat) :
    strstr hay needle = none ↔ Absent needle (cstr hay) := by
  unfold strstr
  constructor
  · exact strstrAux_none needle hay 0
  · intro ha
    cases hres : strstrAux needle hay 0 with
    | none => rfl
    | some r =>
      obtain ⟨j, _, hocc⟩ := strstrAux_some needle hay 0 r hres
      exact absurd hocc.1 (ha j)

/-! ## Lemmas on `treatResponseData` -/

theorem cstr_drop (mem : List Nat) :
    ∀ k, k ≤ strlen mem → cstr (mem.drop k) = (cstr mem).drop k := by
  induction mem with
  | nil => intro k _; simp [cstr_nil]
  | cons b rest ih =>
    intro k hk
    cases k with
    | zero => simp
    | succ k =>
      by_cases hb : b = 0
      · rw [hb] at hk
        simp [strlen, cstr_cons_zero] at hk
      · have hk2 : k ≤ strlen rest := by
          simp only [strlen, cstr_cons_ne b rest hb, List.length_cons] at hk
          unfold strlen; omega
        rw [List.drop_succ_cons, cstr_cons_ne b rest hb, List.drop_succ_cons]
        exact ih k hk2

theorem strlen_drop (mem : List Nat) (k : Nat) (hk : k ≤ strlen mem) :
    strlen (mem.drop k) = strlen mem - k := by
  unfold strlen
  rw [cstr_drop mem k hk, List.length_drop]

theorem getD_cstr (mem : List Nat) (i : Nat) (hi : i < strlen mem) :
    (cstr mem).getD i 0 = mem.getD i 0 := by
  rw [cstr_eq_take mem]
  simp [List.getD_eq_getElem?_getD, List.getElem?_take, hi]

theorem treatResponseDataTrace_of_absent (body : List Nat)
    (h : Absent MARKER (cstr body)) :
    treatResponseDataTrace body = (CODE_500_SERVER_PROBLEM, none) := by
  unfold treatResponseDataTrace
  rw [(strstr_eq_none_iff body MARKER).mpr h]

theorem treatResponseDataTrace_of_firstOcc (body : List Nat) (k : Nat)
    (h : FirstOcc MARKER (cstr body) k) :
    treatResponseDataTrace body =
      if strlen body < k + 10 then (CODE_500_SERVER_PROBLEM, none)
      else if (cstr body).getD (k + 9) 0 ≠ 48 then (CODE_403_SUBJECT_REJECTED, some (k + 9))
      else (CODE_200_CPF_OK, some (k + 9)) := by
  have hk : k ≤ strlen body := firstOcc_le_length h
  unfold treatResponseDataTrace
  rw [(strstr_eq_some_iff body MARKER k).mpr h]
  simp only [strlen_drop body k hk]
  by_cases hlen : strlen body < k + 10
  · have h1 : strlen body - k < 10 := by omega
    rw [if_pos h1, if_pos hlen]
  · have h1 : ¬ strlen body - k < 10 := by omega
    rw [if_neg h1, if_neg hlen, getD_cstr body (k + 9) (by omega)]

theorem absent_or_firstOcc (needle text : List Nat) :
    Absent needle text ∨ ∃ k, FirstOcc needle text k := by
  by_cases h : ∃ i, needle <+: text.drop i
  · right
    classical
    exact ⟨Nat.find h, Nat.find_spec h, fun i hi => Nat.find_min h hi⟩
  · left
    intro i hi
    exact h ⟨i, hi⟩

theorem cstr_append_of_nonzero (l r : List Nat) (h : ∀ b ∈ l, b ≠ 0) :
    cstr (l ++ r) = l ++ cstr r := by
  induction l with
  | nil => rfl
  | cons b t ih =>
    have hb : b ≠ 0 := h b (by simp)
    rw [List.cons_append, cstr_cons_ne _ _ hb, ih (fun x hx => h x (by simp [hx])),
      List.cons_append]

theorem prefix_of_prefix_append {needle x tail : List Nat}
    (hp : needle <+: x ++ tail) (hl : needle.length ≤ x.length) : needle <+: x := by
  have h1 : needle <+: x ++ tail := hp
  have h2 : x <+: x ++ tail := List.prefix_append x tail
  exact List.prefix_of_prefix_length_le h1 h2 hl

/-- An occurrence that is first in `pre` and lies inside it stays first when
text is appended to `pre`. -/
theorem firstOcc_append (needle pre tail : List Nat) (k : Nat)
    (h : FirstOcc needle pre k) (hk : k + needle.length ≤ pre.length) :
    FirstOcc needle (pre ++ tail) k := by
  constructor
  · rw [List.drop_append_of_le_length (by omega)]
    exact h.1.trans (List.prefix_append _ _)
  · intro i hi hp
    rw [List.drop_append_of_le_length (by omega)] at hp
    exact h.2 i hi (prefix_of_prefix_append hp (by rw [List.length_drop]; omega))

theorem treatResponseData_of_head (head rest : List Nat) (k : Nat)
    (hnz : ∀ b ∈ head, b ≠ 0) (hocc : FirstOcc MARKER head k)
    (hk : k + 10 ≤ head.length) :
    treatResponseData (head ++ rest)
      = if head.getD (k + 9) 0 ≠ 48 then CODE_403_SUBJECT_REJECTED else CODE_200_CPF_OK := by
  have hc : cstr (head ++ rest) = head ++ cstr rest := cstr_append_of_nonzero head rest hnz
  have hm : MARKER.length = 6 := by decide
  have hocc2 : FirstOcc MARKER (cstr (head ++ rest)) k := by
    rw [hc]
    exact firstOcc_append MARKER head (cstr rest) k hocc (by omega)
  have hlen : ¬ strlen (head ++ rest) < k + 10 := by
    unfold strlen
    rw [hc, List.length_append]
    omega
  have hget : (cstr (head ++ rest)).getD (k + 9) 0 = head.getD (k + 9) 0 := by
    rw [hc]
    simp only [List.getD_eq_getElem?_getD]
    rw [List.getElem?_append_left (by omega)]
  unfold treatResponseData
  rw [treatResponseDataTrace_of_firstOcc _ k hocc2, if_neg hlen, hget]
  split <;> rfl

/-! ## Body status extractor: claims C5 and C6 -/

/-- C5: when the marker (the text `codigo` searched by the code) occurs in the
body and at least 10 characters remain from the start of its first occurrence,
`treatResponseData` returns 200 if the character 9 bytes past that start is
`'0'` and 403 otherwise, whatever follows, later occurrences included. A body
starting `{"situacao":{"codigo":"0"` gives 200, one starting
`{"situacao":{"codigo":"1"` gives 403. -/
theorem treatResponseData_flag :
    (∀ (body : List Nat) (k : Nat), FirstOcc MARKER (cstr body) k → k + 10 ≤ strlen body →
      treatResponseData body = if (cstr body).getD (k + 9) 0 = 48 then 200 else 403) ∧
    (∀ rest : List Nat, treatResponseData (regularHead ++ rest) = 200) ∧
    (∀ rest : List Nat, treatResponseData (irregularHead ++ rest) = 403) := by
  refine ⟨?_, ?_, ?_⟩
  · intro body k hocc hlen
    unfold treatResponseData
    rw [treatResponseDataTrace_of_firstOcc body k hocc, if_neg (by omega)]
    by_cases hc : (cstr body).getD (k + 9) 0 = 48
    · rw [if_neg (by simpa using hc), if_pos hc]; rfl
    · rw [if_pos hc, if_neg hc]; rfl
  · intro rest
    rw [treatResponseData_of_head regularHead rest 14 (by decide)
      (by unfold FirstOcc; decide) (by decide)]
    decide
  · intro rest
    rw [treatResponseData_of_head irregularHead rest 14 (by decide)
      (by unfold FirstOcc; decide) (by decide)]
    decide

/-- C5, at the body `xcodigo":"0"y`, whose marker starts at offset 1, and at a
body with a second marker after the first. -/
theorem treatResponseData_flag_witness :
    treatResponseData (bytes "xcodigo\":\"0\"y") = 200 ∧
    treatResponseData (bytes "codigo\":\"7\",codigo\":\"0\"") = 403 :=
  ⟨treatResponseData_flag.1 (bytes "xcodigo\":\"0\"y") 1
      (by unfold FirstOcc; decide) (by decide),
   treatResponseData_flag.1 (bytes "codigo\":\"7\",codigo\":\"0\"") 0
      (by unfold FirstOcc; decide) (by decide)⟩

/-- C6: `treatResponseData` returns 500 exactly when the marker is absent from
the body or fewer than 10 characters remain from its first occurrence; in that
case the read of `pos[9]` is not executed, and otherwise it is executed at an
offset inside the body text. -/
theorem treatResponseData_server_problem (body : List Nat) :
    (treatResponseData body = 500 ↔
      (Absent MARKER (cstr body) ∨
        ∃ k, FirstOcc MARKER (cstr body) k ∧ strlen body < k + 10)) ∧
    ((Absent MARKER (cstr body) ∨
        ∃ k, FirstOcc MARKER (cstr body) k ∧ strlen body < k + 10) →
      (treatResponseDataTrace body).2 = none) ∧
    (¬ (Absent MARKER (cstr body) ∨
        ∃ k, FirstOcc MARKER (cstr body) k ∧ strlen body < k + 10) →
      ∃ i, (treatResponseDataTrace body).2 = some i ∧ i < strlen body) := by
  unfold treatResponseData
  rcases absent_or_firstOcc MARKER (cstr body) with ha | ⟨k, hk⟩
  · rw [treatResponseDataTrace_of_absent body ha]
    refine ⟨⟨fun _ => Or.inl ha, fun _ => rfl⟩, fun _ => rfl, fun h => absurd (Or.inl ha) h⟩
  · have hna : ¬ Absent MARKER (cstr body) := fun ha => ha k hk.1
    rw [treatResponseDataTrace_of_firstOcc body k hk]
    by_cases hlen : strlen body < k + 10
    · rw [if_pos hlen]
      exact ⟨⟨fun _ => Or.inr ⟨k, hk, hlen⟩, fun _ => rfl⟩, fun _ => rfl,
        fun h => absurd (Or.inr ⟨k, hk, hlen⟩) h⟩
    · have hcond : ¬ (Absent MARKER (cstr body) ∨
          ∃ k, FirstOcc MARKER (cstr body) k ∧ strlen body < k + 10) := by
        rintro (ha | ⟨j, hj, hjl⟩)
        · exact hna ha
        · rw [firstOcc_unique hj hk] at hjl
          exact hlen hjl
      rw [if_neg hlen]
      by_cases hc : (cstr body).getD (k + 9) 0 ≠ 48
      · rw [if_pos hc]
        have hne : ¬ CODE_403_SUBJECT_REJECTED = 500 := by decide
        refine ⟨⟨fun h => absurd h hne, fun h => absurd h hcond⟩,
          fun h => absurd h hcond, fun _ => ⟨k + 9, rfl, by omega⟩⟩
      · rw [if_neg hc]
        have hne : ¬ CODE_200_CPF_OK = 500 := by decide
        refine ⟨⟨fun h => absurd h hne, fun h => absurd h hcond⟩,
          fun h => absurd h hcond, fun _ => ⟨k + 9, rfl, by omega⟩⟩

/-- C6, at the truncated body `codigo":"` (nine characters from the marker): no
read is executed; and at the body `codigo":"0`, whose read is executed inside it. -/
theorem treatResponseData_server_problem_witness :
    (treatResponseDataTrace (bytes "codigo\":\"")).2 = none ∧
    ∃ i, (treatResponseDataTrace (bytes "codigo\":\"0")).2 = some i ∧
      i < strlen (bytes "codigo\":\"0") :=
  ⟨(treatResponseData_server_problem (bytes "codigo\":\"")).2.1
      (Or.inr ⟨0, by unfold FirstOcc; decide, by decide⟩),
   (treatResponseData_server_problem (bytes "codigo\":\"0")).2.2 (by
      rintro (h | ⟨k, hk, hl⟩)
      · exact h 0 (by decide)
      · have hlen : strlen (bytes "codigo\":\"0") = 10 := by decide
        have h0 : FirstOcc MARKER (cstr (bytes "codigo\":\"0")) 0 := by
          unfold FirstOcc; decide
        have := firstOcc_unique hk h0
        omega)⟩

/-! ## Lemmas on `validateCpf` -/

theorem validateCpf_of_none (st : Statics) (t : Transport) (cpf : List Nat)
    (h : treatCpf cpf (mkBuf MAX_SIZE_CPF t.treatedCpfInit) = none) :
    validateCpf st t cpf = ⟨CODE_400_INVALID_FORMAT, st, []⟩ := by
  unfold validateCpf
  rw [h]

/-- The returned code of `validateCpf` in terms of its four stages. -/
theorem validateCpf_code_eq (st : Statics) (t : Transport) (cpf : List Nat) :
    (validateCpf st t cpf).code =
      validateSpec (treatCpf cpf (mkBuf MAX_SIZE_CPF t.treatedCpfInit))
        (if executorFails st t then none else some (t.response_code, capturedBody t)) := by
  unfold validateCpf
  cases htc : treatCpf cpf (mkBuf MAX_SIZE_CPF t.treatedCpfInit) with
  | none => rfl
  | some treated =>
    obtain ⟨g, c⟩ := st
    simp only [validateSpec, executorFails, capturedBody]
    by_cases hg : g = false ∧ t.global_init ≠ 0
    · obtain ⟨hg1, hg2⟩ := hg
      simp [hg1, hg2, CODE_500_SERVER_PROBLEM]
    · rw [if_neg hg]
      have hg' : (!g && decide (t.global_init ≠ 0)) = false := by
        cases g <;> simp_all
      by_cases hc : c = false ∧ t.easy_init = false
      · obtain ⟨hc1, hc2⟩ := hc
        simp [hc1, hc2, CODE_500_SERVER_PROBLEM]
      · rw [if_neg hc]
        have hc' : (!c && !t.easy_init) = false := by
          cases c <;> cases hi : t.easy_init <;> simp_all
        cases hw : t.easy_setopt .WRITEFUNCTION
        · simp [CODE_500_SERVER_PROBLEM]
        · cases hd : t.easy_setopt .WRITEDATA
          · simp [CODE_500_SERVER_PROBLEM]
          · cases hu : t.easy_setopt .URL
            · simp [CODE_500_SERVER_PROBLEM]
            · cases hi : t.easy_getinfo
              · simp [CODE_500_SERVER_PROBLEM]
              · simp only [hg', hc', Bool.not_true, Bool.or_false, Bool.false_eq_true,
                  if_false, CODE_200_CPF_OK]
                by_cases hk : convertHttpCode t.response_code = 200
                · simp [hk]
                · simp [hk]

theorem convertHttpCode_range (code : Int) :
    convertHttpCode code = 200 ∨ convertHttpCode code = 400 ∨
    convertHttpCode code = 403 ∨ convertHttpCode code = 500 := by
  unfold convertHttpCode
  simp only [CODE_200_CPF_OK, CODE_400_INVALID_FORMAT, CODE_403_SUBJECT_REJECTED,
    CODE_500_SERVER_PROBLEM]
  split_ifs <;> simp

theorem treatResponseData_range (body : List Nat) :
    treatResponseData body = 200 ∨ treatResponseData body = 403 ∨
    treatResponseData body = 500 := by
  unfold treatResponseData treatResponseDataTrace
  simp only [CODE_200_CPF_OK, CODE_403_SUBJECT_REJECTED, CODE_500_SERVER_PROBLEM]
  split
  · simp
  · split_ifs <;> simp

theorem validateSpec_range (sanitized : Option (List Nat)) (executed : Option (Int × List Nat)) :
    validateSpec sanitized executed = 200 ∨ validateSpec sanitized executed = 400 ∨
    validateSpec sanitized executed = 403 ∨ validateSpec sanitized executed = 500 := by
  unfold validateSpec
  cases sanitized with
  | none => simp
  | some id =>
    cases executed with
    | none => simp
    | some p =>
      obtain ⟨status, body⟩ := p
      simp only
      split_ifs
      · exact convertHttpCode_range status
      · rcases treatResponseData_range body with h | h | h <;> simp [h]

theorem executorFails_okTransport (status : Int) (chunks : List Chunk) :
    executorFails ⟨false, false⟩ (okTransport status chunks) = false := by
  simp [executorFails, okTransport]

/-- For an input shorter than 2^31 bytes that is empty, longer than
`MAX_SIZE_CPF-1` or without a digit, `validateCpf` returns 400, calls nothing
in libcurl and leaves the `static` variables as they were. -/
theorem validateCpf_invalid_no_transport (st : Statics) (t : Transport) (cpf : List Nat)
    (hlt : strlen cpf < 2147483648)
    (h : strlen cpf < 1 ∨ strlen cpf > 127 ∨ ¬ (∃ c ∈ cstr cpf, 48 ≤ c ∧ c ≤ 57)) :
    validateCpf st t cpf = ⟨400, st, []⟩ := by
  have hnone : treatCpf cpf (mkBuf MAX_SIZE_CPF t.treatedCpfInit) = none := by
    have := treatCpf_of_lt cpf (mkBuf MAX_SIZE_CPF t.treatedCpfInit)
      (le_of_eq (mkBuf_length _ _).symm) hlt
    rw [if_pos h] at this
    simpa using this
  rw [validateCpf_of_none st t cpf hnone]
  rfl

theorem treatCpf_isSome_of_map {cpf buf d : List Nat}
    (h : (treatCpf cpf buf).map cstr = some d) : ∃ b, treatCpf cpf buf = some b := by
  cases hc : treatCpf cpf buf with
  | none => rw [hc] at h; exact absurd h (by simp)
  | some b => exact ⟨b, rfl⟩

/-- A run of `validateCpf` on a valid input, from fresh `static` variables and
with a transport on which every call succeeds. -/
theorem validateCpf_okTransport (status : Int) (chunks : List Chunk) (cpf b : List Nat)
    (hb : treatCpf cpf (mkBuf MAX_SIZE_CPF (fun _ => 0)) = some b) :
    (validateCpf ⟨false, false⟩ (okTransport status chunks) cpf).code
      = (if convertHttpCode status ≠ 200 then convertHttpCode status
         else treatResponseData (capturedBody (okTransport status chunks))) ∧
    CurlOp.easy_perform ∈ (validateCpf ⟨false, false⟩ (okTransport status chunks) cpf).ops := by
  have hb2 : treatCpf cpf (mkBuf MAX_SIZE_CPF (okTransport status chunks).treatedCpfInit)
      = some b := hb
  constructor
  · rw [validateCpf_code_eq, hb2, executorFails_okTransport]
    rfl
  · unfold validateCpf
    rw [hb2]
    by_cases hk : convertHttpCode status = CODE_200_CPF_OK
    · simp [okTransport, hk]
    · simp [okTransport, hk]

/-! ## Entry point: claims C3, C7, C8, C9 and C10 -/

/-- C3, at the failing input: for the string of 2^32+1 characters `oversizeCpf`,
longer than the limit, `validateCpf` does not return 400: with a transport that
reports status 404 it returns 403, after calling `curl_easy_perform`. -/
theorem validateCpf_oversize_reaches_transport :
    strlen oversizeCpf = 4294967297 ∧
    (validateCpf ⟨false, false⟩ (okTransport 404 []) oversizeCpf).code = 403 ∧
    CurlOp.easy_perform ∈ (validateCpf ⟨false, false⟩ (okTransport 404 []) oversizeCpf).ops := by
  obtain ⟨b, hb⟩ := treatCpf_isSome_of_map (treatCpf_oversize (mkBuf MAX_SIZE_CPF (fun _ => 0))
    (le_of_eq (mkBuf_length _ _).symm))
  have h := validateCpf_okTransport 404 [] oversizeCpf b hb
  exact ⟨oversizeCpf_strlen, h.1.trans (by decide), h.2⟩

/-- C7: with the transport as an oracle, the code returned by `validateCpf`
is the sequence of the specification: 400 if `treatCpf` fails; otherwise 500 if
the request part gives up; otherwise `convertHttpCode` of the remote status if
that is not 200; otherwise `treatResponseData` of the captured body. A valid
input with status 200 and a body whose flag character is `'0'` gives 200, and a
valid input with status 401 gives 500. -/
theorem validateCpf_sequence :
    (∀ (st : Statics) (t : Transport) (cpf : List Nat),
      (validateCpf st t cpf).code =
        validateSpec (treatCpf cpf (mkBuf MAX_SIZE_CPF t.treatedCpfInit))
          (if executorFails st t then none else some (t.response_code, capturedBody t))) ∧
    (∀ (st : Statics) (t : Transport) (cpf : List Nat) (k : Nat),
      treatCpf cpf (mkBuf MAX_SIZE_CPF t.treatedCpfInit) ≠ none →
      executorFails st t = false → t.response_code = 200 →
      FirstOcc MARKER (cstr (capturedBody t)) k → k + 10 ≤ strlen (capturedBody t) →
      (cstr (capturedBody t)).getD (k + 9) 0 = 48 →
      (validateCpf st t cpf).code = 200) ∧
    (∀ (st : Statics) (t : Transport) (cpf : List Nat),
      treatCpf cpf (mkBuf MAX_SIZE_CPF t.treatedCpfInit) ≠ none →
      t.response_code = 401 → (validateCpf st t cpf).code = 500) := by
  refine ⟨validateCpf_code_eq, ?_, ?_⟩
  · intro st t cpf k hv hx hs hocc hlen hflag
    obtain ⟨b, hb⟩ := Option.ne_none_iff_exists'.mp hv
    rw [validateCpf_code_eq, hb, hx, hs]
    have hconv : convertHttpCode 200 = 200 := by decide
    simp only [validateSpec, Bool.false_eq_true, if_false, hconv, ne_eq, not_true_eq_false]
    unfold treatResponseData
    rw [treatResponseDataTrace_of_firstOcc _ k hocc, if_neg (by omega), if_neg (by simpa using hflag)]
    rfl
  · intro st t cpf hv hs
    obtain ⟨b, hb⟩ := Option.ne_none_iff_exists'.mp hv
    rw [validateCpf_code_eq, hb, hs]
    have hconv : convertHttpCode 401 = 500 := by decide
    cases executorFails st t <;> simp [validateSpec, hconv]

/-- C7, at the input `"1"`: status 401 gives 500, and status 200 with the body
`codigo":"0"` gives 200. -/
theorem validateCpf_sequence_witness :
    (validateCpf ⟨false, false⟩ (okTransport 401 []) [49]).code = 500 ∧
    (validateCpf ⟨false, false⟩ (okTransport 200 [regularChunk]) [49]).code = 200 :=
  ⟨validateCpf_sequence.2.2 ⟨false, false⟩ (okTransport 401 []) [49] (by decide) rfl,
   validateCpf_sequence.2.1 ⟨false, false⟩ (okTransport 200 [regularChunk]) [49] 0
     (by decide) (by decide) rfl (by unfold FirstOcc; decide) (by decide) (by decide)⟩

/-- C8: `validateCpf` is a total function whose returned code is one of 200,
400, 403 and 500 for every input, every `static` state and every behaviour of
the transport; `convertHttpCode` returns one of these four on every integer and
`treatResponseData` one of 200, 403 and 500 on every body. -/
theorem validateCpf_four_codes :
    (∀ (st : Statics) (t : Transport) (cpf : List Nat),
      (validateCpf st t cpf).code = 200 ∨ (validateCpf st t cpf).code = 400 ∨
      (validateCpf st t cpf).code = 403 ∨ (validateCpf st t cpf).code = 500) ∧
    (∀ code : Int, convertHttpCode code = 200 ∨ convertHttpCode code = 400 ∨
      convertHttpCode code = 403 ∨ convertHttpCode code = 500) ∧
    (∀ body : List Nat, treatResponseData body = 200 ∨ treatResponseData body = 403 ∨
      treatResponseData body = 500) := by
  refine ⟨?_, convertHttpCode_range, treatResponseData_range⟩
  intro st t cpf
  rw [validateCpf_code_eq]
  exact validateSpec_range _ _

/-- C9: on a valid input, when the remote status maps to a code other than
200, the returned code is the same whatever body the transport delivers (chunks
and initial content of `curlOutput`); when the request part does not give up it
is `convertHttpCode` of the status, 403 for status 404. -/
theorem validateCpf_body_not_inspected (st : Statics) (t : Transport) (cpf : List Nat)
    (chunks : List Chunk) (garbage : Nat → Nat)
    (hvalid : treatCpf cpf (mkBuf MAX_SIZE_CPF t.treatedCpfInit) ≠ none)
    (hstatus : convertHttpCode t.response_code ≠ 200) :
    (validateCpf st { t with chunks := chunks, curlOutputInit := garbage } cpf).code
        = (validateCpf st t cpf).code ∧
    (executorFails st t = false →
      (validateCpf st t cpf).code = convertHttpCode t.response_code) ∧
    (executorFails st t = false → t.response_code = 404 →
      (validateCpf st t cpf).code = 403) := by
  obtain ⟨b, hb⟩ := Option.ne_none_iff_exists'.mp hvalid
  have hx : executorFails st { t with chunks := chunks, curlOutputInit := garbage }
      = executorFails st t := rfl
  have hcode : executorFails st t = false →
      (validateCpf st t cpf).code = convertHttpCode t.response_code := by
    intro hf
    rw [validateCpf_code_eq, hb, hf]
    simp [validateSpec, hstatus]
  refine ⟨?_, hcode, ?_⟩
  · rw [validateCpf_code_eq, validateCpf_code_eq, hx]
    show validateSpec (treatCpf cpf (mkBuf MAX_SIZE_CPF t.treatedCpfInit)) _ = _
    rw [hb]
    cases executorFails st t
    · simp [validateSpec, hstatus]
    · rfl
  · intro hf h404
    rw [hcode hf, h404]
    decide

/-- C9, at the input `"1"` with status 404: the body `codigo":"0"` changes nothing. -/
theorem validateCpf_body_not_inspected_witness :
    (validateCpf ⟨false, false⟩
        { okTransport 404 [] with chunks := [regularChunk], curlOutputInit := fun _ => 65 }
        [49]).code
      = (validateCpf ⟨false, false⟩ (okTransport 404 []) [49]).code ∧
    (validateCpf ⟨false, false⟩ (okTransport 404 []) [49]).code = 403 :=
  ⟨(validateCpf_body_not_inspected ⟨false, false⟩ (okTransport 404 []) [49] [regularChunk]
      (fun _ => 65) (by decide) (by decide)).1,
   (validateCpf_body_not_inspected ⟨false, false⟩ (okTransport 404 []) [49] [regularChunk]
      (fun _ => 65) (by decide) (by decide)).2.2 (by decide) rfl⟩

/-- C10 as stated fails: on the valid input `"1"` with remote status 404, a
failed `curl_easy_perform` and a failed `curl_slist_append` both leave the
result 403, not 500. -/
theorem validateCpf_failure_not_500 :
    (treatCpf [49] (mkBuf MAX_SIZE_CPF performFailedTransport.treatedCpfInit) ≠ none ∧
      performFailedTransport.easy_perform ≠ 0 ∧
      (validateCpf ⟨false, false⟩ performFailedTransport [49]).code = 403) ∧
    (treatCpf [49] (mkBuf MAX_SIZE_CPF headerFailedTransport.treatedCpfInit) ≠ none ∧
      headerFailedTransport.slist_append = false ∧
      (validateCpf ⟨false, false⟩ headerFailedTransport [49]).code = 403) := by
  refine ⟨⟨by decide, by decide, ?_⟩, ⟨by decide, rfl, ?_⟩⟩
  · rw [validateCpf_code_eq]; decide
  · rw [validateCpf_code_eq]; decide

/-- C10, amended: on a valid input, if `curl_global_init` fails, or
`curl_easy_init` fails, or `curl_easy_getinfo` cannot read the response status,
`validateCpf` returns 500 whatever status and body the transport reports. -/
theorem validateCpf_setup_failure (st : Statics) (t : Transport) (cpf : List Nat)
    (hvalid : treatCpf cpf (mkBuf MAX_SIZE_CPF t.treatedCpfInit) ≠ none)
    (hfail : (st.global = false ∧ t.global_init ≠ 0) ∨
      (st.curl = false ∧ t.easy_init = false) ∨ t.easy_getinfo = false) :
    (validateCpf st t cpf).code = 500 := by
  obtain ⟨b, hb⟩ := Option.ne_none_iff_exists'.mp hvalid
  have hx : executorFails st t = true := by
    unfold executorFails
    rcases hfail with ⟨h1, h2⟩ | ⟨h1, h2⟩ | h
    · simp [h1, h2]
    · simp [h1, h2]
    · simp [h]
  rw [validateCpf_code_eq, hb, hx]
  rfl

/-- C10 amended, at the input `"1"` with a transport that reports status 200
but whose `curl_easy_getinfo` fails. -/
theorem validateCpf_setup_failure_witness :
    (validateCpf ⟨false, false⟩ { okTransport 200 [regularChunk] with easy_getinfo := false }
      [49]).code = 500 :=
  validateCpf_setup_failure ⟨false, false⟩
    { okTransport 200 [regularChunk] with easy_getinfo := false } [49]
    (by decide) (Or.inr (Or.inr rfl))

/-! ## Lemmas on `write_callback` -/

theorem toSizeT_ofNat (n : Nat) (h : n < 18446744073709551616) : toSizeT (n : Int) = n := by
  unfold toSizeT
  have : ((n : Int) % 18446744073709551616) = (n : Int) := Int.emod_eq_of_lt (by omega) (by omega)
  rw [this, Int.toNat_ofNat]

theorem wrap32_of_range (x : Int) (h0 : 0 ≤ x) (h1 : x < 2147483648) : wrap32 x = x := by
  unfold wrap32
  have hm : x % 4294967296 = x := Int.emod_eq_of_lt h0 (by omega)
  rw [hm, toInt32_of_lt _ (by omega)]
  omega

/-- What `write_callback` returns, whatever the pointers: the 32-bit value of
`size * nmemb`, converted back to `size_t`. -/
theorem write_callback_result (ptr userdata : Option (List Nat)) (size nmemb : Nat) :
    (write_callback ptr size nmemb userdata).1
      = toSizeT (toInt32 (size * nmemb % 18446744073709551616)) := by
  unfold write_callback
  cases userdata with
  | none => rfl
  | some buf =>
    cases ptr with
    | none => rfl
    | some data =>
      simp only
      split_ifs <;> rfl

/-- The memory at `userdata` after `write_callback`, for non-`NULL` pointers. -/
theorem write_callback_buffer (data buf : List Nat) (size nmemb : Nat) :
    (write_callback (some data) size nmemb (some buf)).2 = some
      (if toInt32 (size * nmemb % 18446744073709551616) > 0 ∧
          wrap32 (toInt32 (strlen buf) + toInt32 (size * nmemb % 18446744073709551616))
            < (MAX_SIZE_RESPONSE_JSON : Int) then
        (if 0 ≤ wrap32 (toInt32 (strlen buf)
              + toInt32 (size * nmemb % 18446744073709551616)) then
          writeAt (writeAt buf (toInt32 (strlen buf)).toNat
              (readBytes data (toInt32 (size * nmemb % 18446744073709551616)).toNat))
            (wrap32 (toInt32 (strlen buf)
              + toInt32 (size * nmemb % 18446744073709551616))).toNat [0]
        else
          writeAt buf (toInt32 (strlen buf)).toNat
            (readBytes data (toInt32 (size * nmemb % 18446744073709551616)).toNat))
      else buf) := by
  unfold write_callback
  simp only
  generalize toInt32 (size * nmemb % 18446744073709551616) = received
  generalize toInt32 (strlen buf) = current_size
  by_cases h1 : received > 0
  · by_cases h2 : wrap32 (current_size + received) < (MAX_SIZE_RESPONSE_JSON : Int)
    · by_cases h3 : 0 ≤ wrap32 (current_size + received)
      · simp [h1, h2, h3]
      · simp [h1, h2, h3]
    · simp [h1, h2]
  · simp [h1]

theorem readBytes_self (src : List Nat) : readBytes src src.length = src := by
  unfold readBytes
  apply List.ext_getElem
  · simp
  · intro i h1 h2
    simp at h1
    simp [List.getD_eq_getElem?_getD, List.getElem?_eq_getElem h1]

theorem writeAt_length (dst : List Nat) (off : Nat) (src : List Nat)
    (h : off + src.length ≤ dst.length) : (writeAt dst off src).length = dst.length := by
  unfold writeAt
  simp only [List.length_append, List.length_take, List.length_drop]
  omega

theorem writeAt_length_ge (dst : List Nat) (off : Nat) (src : List Nat)
    (h : off ≤ dst.length) : off + src.length ≤ (writeAt dst off src).length := by
  unfold writeAt
  simp only [List.length_append, List.length_take, List.length_drop]
  omega

/-- For a chunk of fewer than 2^31-1024 bytes and a buffer text of at most 1024
characters no `int` of `write_callback` overflows: the chunk is stored after
the text, followed by a NUL, when text and chunk together stay below
`MAX_SIZE_RESPONSE_JSON`, and nothing is stored otherwise. -/
theorem write_callback_small (data buf : List Nat) (size nmemb : Nat)
    (hn : size * nmemb < 2147482624) (hL : strlen buf ≤ 1024) :
    (write_callback (some data) size nmemb (some buf)).2 = some
      (if 0 < size * nmemb ∧ strlen buf + size * nmemb < 1024 then
        writeAt (writeAt buf (strlen buf) (readBytes data (size * nmemb)))
          (strlen buf + size * nmemb) [0]
      else buf) := by
  rw [write_callback_buffer]
  have hm : size * nmemb % 18446744073709551616 = size * nmemb := Nat.mod_eq_of_lt (by omega)
  rw [hm, toInt32_of_lt _ (by omega : size * nmemb < 2147483648),
    toInt32_of_lt _ (by omega : strlen buf < 2147483648)]
  have hw : wrap32 ((strlen buf : Int) + (size * nmemb : Nat))
      = ((strlen buf + size * nmemb : Nat) : Int) := by
    rw [wrap32_of_range _ (by omega) (by omega)]
    omega
  rw [hw]
  simp only [MAX_SIZE_RESPONSE_JSON, Int.toNat_ofNat]
  by_cases hc : 0 < size * nmemb ∧ strlen buf + size * nmemb < 1024
  · have hc1 : ((size * nmemb : Nat) : Int) > 0 ∧
        ((strlen buf + size * nmemb : Nat) : Int) < ((1024 : Nat) : Int) := by omega
    have hc2 : (0 : Int) ≤ ((strlen buf + size * nmemb : Nat) : Int) := by omega
    rw [if_pos hc, if_pos hc1, if_pos hc2]
  · have hc1 : ¬ (((size * nmemb : Nat) : Int) > 0 ∧
        ((strlen buf + size * nmemb : Nat) : Int) < ((1024 : Nat) : Int)) := by omega
    rw [if_neg hc, if_neg hc1]

/-- The two stores of `write_callback`, inside the array. -/
theorem writeAt_chunk_terminator (buf data : List Nat) (L : Nat)
    (h : L + data.length < buf.length) :
    writeAt (writeAt buf L data) (L + data.length) [0]
      = buf.take L ++ data ++ 0 :: buf.drop (L + data.length + 1) := by
  have hlen : (buf.take L ++ data).length = L + data.length := by
    rw [List.length_append, List.length_take]; omega
  unfold writeAt
  have h1 : List.take (L + data.length) (buf.take L ++ data ++ buf.drop (L + data.length))
      = buf.take L ++ data := by
    rw [← hlen, List.take_left']
    rfl
  have h2 : List.drop (L + data.length + [0].length)
      (buf.take L ++ data ++ buf.drop (L + data.length)) = buf.drop (L + data.length + 1) := by
    have : L + data.length + [0].length = (buf.take L ++ data).length + 1 := by
      rw [hlen]; rfl
    rw [this, List.drop_append, List.drop_drop]
  rw [h1, h2]
  simp

theorem cstr_append_zero_any (d rest : List Nat) : cstr (d ++ 0 :: rest) = cstr d := by
  induction d with
  | nil => rw [List.nil_append, cstr_cons_zero]; rfl
  | cons b t ih =>
    by_cases hb : b = 0
    · rw [hb, List.cons_append, cstr_cons_zero, cstr_cons_zero]
    · rw [List.cons_append, cstr_cons_ne _ _ hb, cstr_cons_ne _ _ hb, ih]

/-- The buffer after one chunk of fewer than 2^31-1024 bytes, in a
`curlOutput` of `MAX_SIZE_RESPONSE_JSON` bytes: the array keeps its size, and
its text is the old text followed by the chunk (up to a NUL inside the chunk)
when both together are shorter than 1024, and the old text otherwise. -/
theorem write_callback_text (data buf : List Nat)
    (hn : data.length < 2147482624) (hbuf : buf.length = MAX_SIZE_RESPONSE_JSON) :
    ∃ buf2, (write_callback (some data) 1 data.length (some buf)).2 = some buf2 ∧
      buf2.length = MAX_SIZE_RESPONSE_JSON ∧
      buf2 = (if strlen buf + data.length < 1024 then
          buf.take (strlen buf) ++ data ++ 0 :: buf.drop (strlen buf + data.length + 1)
        else buf) ∧
      cstr buf2 = (if strlen buf + data.length < 1024 then cstr buf ++ cstr data
        else cstr buf) := by
  simp only [MAX_SIZE_RESPONSE_JSON] at hbuf ⊢
  have hL : strlen buf ≤ 1024 := by rw [← hbuf]; exact strlen_le buf
  have hw := write_callback_small data buf 1 data.length (by omega) hL
  rw [Nat.one_mul, readBytes_self] at hw
  by_cases hfit : strlen buf + data.length < 1024
  · have hstore := writeAt_chunk_terminator buf data (strlen buf) (by omega)
    by_cases h0 : 0 < data.length
    · rw [if_pos ⟨h0, hfit⟩, hstore] at hw
      refine ⟨_, hw, ?_, ?_, ?_⟩
      · simp only [List.length_append, List.length_take, List.length_cons, List.length_drop]
        omega
      · rw [if_pos hfit]
      · rw [if_pos hfit, List.append_assoc, ← cstr_eq_take,
          cstr_append_of_nonzero _ _ (cstr_nonzero buf), cstr_append_zero_any]
    · have hd : data = [] := List.eq_nil_of_length_eq_zero (by omega)
      rw [if_neg (fun h => h0 h.1)] at hw
      have hz : buf.drop (strlen buf) = 0 :: buf.drop (strlen buf + 1) := by
        have hlt : strlen buf < buf.length := by omega
        rw [List.drop_eq_getElem_cons hlt]
        congr 1
        by_contra hne
        have h1 : cstr (buf.drop (strlen buf)) = [] := by
          rw [cstr_drop buf _ (le_refl _)]
          exact List.drop_eq_nil_of_le (le_refl _)
        rw [List.drop_eq_getElem_cons hlt, cstr_cons_ne _ _ hne] at h1
        exact absurd h1 (by simp)
      refine ⟨_, hw, hbuf, ?_, ?_⟩
      · rw [if_pos hfit, hd]
        simp only [List.append_nil, List.length_nil, Nat.add_zero]
        rw [← hz, List.take_append_drop]
      · rw [if_pos hfit, hd]
        simp [cstr_nil]
  · rw [if_neg (fun h => hfit h.2)] at hw
    exact ⟨_, hw, hbuf, by rw [if_neg hfit], by rw [if_neg hfit]⟩

/-- For a chunk of fewer than 2^31 bytes the value returned by `write_callback`
is `size * nmemb`. -/
theorem write_callback_result_small (ptr userdata : Option (List Nat)) (size nmemb : Nat)
    (h : size * nmemb < 2147483648) :
    (write_callback ptr size nmemb userdata).1 = size * nmemb := by
  rw [write_callback_result, Nat.mod_eq_of_lt (by omega), toInt32_of_lt _ h,
    toSizeT_ofNat _ (by omega)]

theorem performWrites_cons (c : Chunk) (cs : List Chunk) (buf : List Nat) :
    performWrites (c :: cs) buf
      = performWrites cs (((write_callback c.ptr c.size c.nmemb (some buf)).2).getD buf) := by
  simp only [performWrites, List.foldl_cons]

/-- Capacity invariant for chunks of fewer than 2^31-1024 bytes each: the array
keeps its 1024 bytes and its text stays shorter than 1024. -/
theorem performWrites_capacity (datas : List (List Nat))
    (hsmall : ∀ d ∈ datas, d.length < 2147482624) :
    ∀ buf : List Nat, buf.length = MAX_SIZE_RESPONSE_JSON → strlen buf < 1024 →
      (performWrites (datas.map chunkOf) buf).length = MAX_SIZE_RESPONSE_JSON ∧
      strlen (performWrites (datas.map chunkOf) buf) < 1024 := by
  induction datas with
  | nil => intro buf hbuf hL; exact ⟨hbuf, hL⟩
  | cons d rest ih =>
    intro buf hbuf hL
    obtain ⟨buf2, h1, h2, _, h4⟩ := write_callback_text d buf (hsmall d (by simp)) hbuf
    rw [List.map_cons, performWrites_cons]
    have hstep : ((write_callback (chunkOf d).ptr (chunkOf d).size (chunkOf d).nmemb
        (some buf)).2).getD buf = buf2 := by
      show ((write_callback (some d) 1 d.length (some buf)).2).getD buf = buf2
      rw [h1, Option.getD_some]
    rw [hstep]
    apply ih (fun x hx => hsmall x (by simp [hx])) buf2 h2
    unfold strlen
    rw [h4]
    by_cases hfit : strlen buf + d.length < 1024
    · rw [if_pos hfit, List.length_append]
      have := strlen_le d
      unfold strlen at this hfit
      omega
    · rw [if_neg hfit]; exact hL

/-- C13 as stated fails: for `size` 1 and `nmemb` 2^31, a product that does not
fit in the 32-bit `int`, the value returned is 2^64-2^31, and for `size` 2^32
and `nmemb` 1 it is 0; neither is `size * nmemb`. -/
theorem write_callback_result_truncated :
    (write_callback none 1 2147483648 none).1 = 18446744071562067968 ∧
    (write_callback none 1 2147483648 none).1 ≠ 1 * 2147483648 ∧
    (write_callback none 4294967296 1 (some emptyBuffer)).1 = 0 ∧
    (write_callback none 4294967296 1 (some emptyBuffer)).1 ≠ 4294967296 * 1 := by
  rw [write_callback_result, write_callback_result]
  decide

/-- C13, amended: for every invocation of `write_callback` whose
`size * nmemb` fits in the `int` that stores it (is below 2^31), the value
returned to the transport is `size * nmemb`, whatever `ptr` and `userdata` are:
chunk appended, dropped for lack of capacity, or ignored for a `NULL` pointer. -/
theorem write_callback_reports_chunk (ptr userdata : Option (List Nat)) (size nmemb : Nat)
    (h : size * nmemb < 2147483648) :
    (write_callback ptr size nmemb userdata).1 = size * nmemb :=
  write_callback_result_small ptr userdata size nmemb h

/-- C13 amended, at a chunk that is appended, a chunk that is dropped and a
`NULL` buffer. -/
theorem write_callback_reports_chunk_witness :
    (write_callback (some [65, 66]) 1 2 (some emptyBuffer)).1 = 1 * 2 ∧
    (write_callback (some (List.replicate 2000 66)) 2 1000 (some emptyBuffer)).1 = 2 * 1000 ∧
    (write_callback (some [65]) 1 1 none).1 = 1 * 1 :=
  ⟨write_callback_reports_chunk (some [65, 66]) (some emptyBuffer) 1 2 (by decide),
   write_callback_reports_chunk (some (List.replicate 2000 66)) (some emptyBuffer) 2 1000
     (by decide),
   write_callback_reports_chunk (some [65]) none 1 1 (by decide)⟩


/-! ## Sanitizer example: claim C15 -/

/-- C15 as stated fails: for the raw input `404.442.820-13` the sanitized
identifier is not `40442820135`. -/
theorem treatCpf_example_not_as_stated :
    (treatCpf (bytes "404.442.820-13") (mkBuf MAX_SIZE_CPF (fun _ => 0))).map cstr
      ≠ some (bytes "40442820135") := by decide

/-- C15, amended: for the raw input `404.442.820-13`, `treatCpf` succeeds and
the sanitized identifier is `40444282013`, the digits of the input in order. -/
theorem treatCpf_example (buf : List Nat) (hbuf : buf.length = MAX_SIZE_CPF) :
    (treatCpf (bytes "404.442.820-13") buf).map cstr = some (bytes "40444282013") := by
  rw [treatCpf_of_lt _ buf (by rw [hbuf]) (by decide)]
  have hc : cstr (bytes "404.442.820-13") = bytes "404.442.820-13" := by decide
  have hn : ¬ (strlen (bytes "404.442.820-13") < 1 ∨ strlen (bytes "404.442.820-13") > 127 ∨
      ¬ ∃ c ∈ cstr (bytes "404.442.820-13"), 48 ≤ c ∧ c ≤ 57) := by
    rintro (h | h | h)
    · exact absurd h (by decide)
    · exact absurd h (by decide)
    · exact h ⟨52, by decide, by decide⟩
  rw [if_neg hn, hc]
  decide

/-- C15 amended, with a destination array full of the byte 255. -/
theorem treatCpf_example_witness :
    (treatCpf (bytes "404.442.820-13") (mkBuf MAX_SIZE_CPF (fun _ => 255))).map cstr
      = some (bytes "40444282013") :=
  treatCpf_example (mkBuf MAX_SIZE_CPF (fun _ => 255)) (mkBuf_length _ _)

/-! ## Field marker: claim C17 -/

/-- C17 as stated fails: the body `codigo = 0` does not contain the quoted text
`"codigo"`, yet extraction returns 200, not 500; and in a body starting
`{"situacao":{"codigo":"0"` the character 9 bytes past the start of the quoted
marker is a quotation mark, while extraction returns 200. -/
theorem treatResponseData_quoted_marker_not_used :
    (Absent QUOTED_MARKER (cstr (bytes "codigo = 0")) ∧
      treatResponseData (bytes "codigo = 0") = 200) ∧
    (FirstOcc QUOTED_MARKER (cstr regularHead) 13 ∧
      (cstr regularHead).getD (13 + 9) 0 = 34 ∧ treatResponseData regularHead = 200) := by
  refine ⟨⟨?_, by decide⟩, ⟨by unfold FirstOcc; decide, by decide, by decide⟩⟩
  exact (strstr_eq_none_iff _ _).mp (by decide)

/-- C17, amended: the marker searched for is the text `codigo` without
quotation marks: for every body in which these letters do not occur extraction
returns 500, and when they occur with at least 10 characters remaining, the
character read as the flag is the one 9 bytes past the start of their first
occurrence. -/
theorem treatResponseData_marker_letters :
    MARKER = [99, 111, 100, 105, 103, 111] ∧
    (∀ body : List Nat, Absent MARKER (cstr body) → treatResponseData body = 500) ∧
    (∀ (body : List Nat) (k : Nat), FirstOcc MARKER (cstr body) k → k + 10 ≤ strlen body →
      (treatResponseDataTrace body).2 = some (k + 9) ∧
      (treatResponseData body = 200 ↔ body.getD (k + 9) 0 = 48)) := by
  refine ⟨by decide, ?_, ?_⟩
  · intro body h
    unfold treatResponseData
    rw [treatResponseDataTrace_of_absent body h]
    rfl
  · intro body k hocc hlen
    unfold treatResponseData
    rw [treatResponseDataTrace_of_firstOcc body k hocc, if_neg (by omega),
      getD_cstr body (k + 9) (by omega)]
    by_cases hc : body.getD (k + 9) 0 = 48
    · rw [if_neg (by simpa using hc)]
      exact ⟨rfl, fun _ => hc, fun _ => rfl⟩
    · rw [if_pos hc]
      have hne : ¬ CODE_403_SUBJECT_REJECTED = 200 := by decide
      exact ⟨rfl, fun h => absurd h hne, fun h => absurd h hc⟩

/-- C17 amended, at the body `"cod":codigo=0` (no quoted marker, letters at
offset 6) and at the body `marker missing`. -/
theorem treatResponseData_marker_letters_witness :
    treatResponseData (bytes "marker missing") = 500 ∧
    (treatResponseDataTrace (bytes "\"cod\":codigo=  0")).2 = some 15 :=
  ⟨treatResponseData_marker_letters.2.1 (bytes "marker missing")
      ((strstr_eq_none_iff _ _).mp (by decide)),
   (treatResponseData_marker_letters.2.2 (bytes "\"cod\":codigo=  0") 6
      (by unfold FirstOcc; decide) (by decide)).1⟩

/-! ## Status code mapper: claim C18 -/

/-- Only the status 404 is mapped to 403. -/
theorem convertHttpCode_of_ne_404 (c : Int) (hc : c ≠ 404) :
    convertHttpCode c = 200 ∨ convertHttpCode c = 400 ∨ convertHttpCode c = 500 := by
  unfold convertHttpCode
  simp only [CODE_200_CPF_OK, CODE_400_INVALID_FORMAT, CODE_403_SUBJECT_REJECTED,
    CODE_500_SERVER_PROBLEM]
  by_cases h1 : c = 200
  · simp [h1]
  · by_cases h2 : c = 206
    · simp [h2]
    · by_cases h3 : c = 400
      · simp [h3]
      · by_cases h4 : c = 401
        · simp [h4]
        · by_cases h5 : c = 500
          · simp [h5]
          · simp [h1, h2, h3, h4, h5, hc]

/-- C18 as stated fails: 404 maps to 403 and 403 maps to 500, so mapping twice
differs from mapping once and 403 is not a fixed point. -/
theorem convertHttpCode_not_idempotent :
    convertHttpCode (convertHttpCode 404) ≠ convertHttpCode 404 ∧
    convertHttpCode 403 ≠ 403 := by decide

/-- C18, amended: for every integer code other than 404, mapping twice gives
the same as mapping once; the local codes 200, 400 and 500 are fixed points of
the mapper, and 403 is mapped to 500. -/
theorem convertHttpCode_idempotent_except_404 :
    (∀ c : Int, c ≠ 404 → convertHttpCode (convertHttpCode c) = convertHttpCode c) ∧
    convertHttpCode 200 = 200 ∧ convertHttpCode 400 = 400 ∧ convertHttpCode 500 = 500 ∧
    convertHttpCode 403 = 500 := by
  refine ⟨?_, by decide, by decide, by decide, by decide⟩
  intro c hc
  rcases convertHttpCode_of_ne_404 c hc with h | h | h
  · rw [h]; decide
  · rw [h]; decide
  · rw [h]; decide

/-- C18 amended, at the codes 206 and 401. -/
theorem convertHttpCode_idempotent_except_404_witness :
    convertHttpCode (convertHttpCode 206) = convertHttpCode 206 ∧
    convertHttpCode (convertHttpCode 401) = convertHttpCode 401 :=
  ⟨convertHttpCode_idempotent_except_404.1 206 (by decide),
   convertHttpCode_idempotent_except_404.1 401 (by decide)⟩

/-! ## URL composition: claim C14 -/

theorem strcpy_eq (dst src : List Nat) :
    strcpy dst src = cstr src ++ 0 :: dst.drop (strlen src + 1) := by
  unfold strcpy writeAt strlen
  simp [List.length_append]

theorem strcat_eq (dst src : List Nat) :
    strcat dst src = cstr dst ++ cstr src ++ 0 :: dst.drop (strlen dst + strlen src + 1) := by
  unfold strcat writeAt
  rw [← cstr_eq_take]
  unfold strlen
  simp [List.length_append, Nat.add_assoc]

/-- The composition `strcpy(completeUrl, base); strcat(completeUrl, id)` in an
array large enough for both strings and the terminator: the array keeps its
size and its text is `base` followed by `id`. -/
theorem strcat_strcpy (dst base id : List Nat)
    (h : strlen base + strlen id + 1 ≤ dst.length) :
    (strcat (strcpy dst base) id).length = dst.length ∧
    cstr (strcat (strcpy dst base) id) = cstr base ++ cstr id := by
  have h1 : strcpy dst base = cstr base ++ 0 :: dst.drop (strlen base + 1) :=
    strcpy_eq dst base
  have h2 : cstr (strcpy dst base) = cstr base := by
    rw [h1, cstr_append_zero _ _ (cstr_nonzero base)]
  have h3 : strlen (strcpy dst base) = strlen base := congrArg List.length h2
  have h4 : (strcpy dst base).length = dst.length := by
    rw [h1]
    simp only [List.length_append, List.length_cons, List.length_drop]
    unfold strlen at h ⊢
    omega
  rw [strcat_eq, h2, h3]
  constructor
  · simp only [List.length_append, List.length_cons, List.length_drop, h4]
    unfold strlen at h ⊢
    omega
  · rw [List.append_assoc, cstr_append_of_nonzero _ _ (cstr_nonzero base),
      cstr_append_zero _ _ (cstr_nonzero id)]

/-- What `treatCpf` leaves on success: between 1 and `MAX_SIZE_CPF-1` characters,
all of them digits. -/
theorem treatCpf_result_bounds (cpf buf treated : List Nat) (hbuf : MAX_SIZE_CPF ≤ buf.length)
    (h : treatCpf cpf buf = some treated) :
    1 ≤ strlen treated ∧ strlen treated ≤ MAX_SIZE_CPF - 1 ∧
    ∀ c ∈ cstr treated, 48 ≤ c ∧ c ≤ 57 := by
  have he := treatCpf_eq cpf buf hbuf
  rw [h, Option.map_some'] at he
  by_cases h1 : toInt32 (strlen cpf) < 1 ∨ toInt32 (strlen cpf) > 127
  · rw [if_pos h1] at he
    exact absurd he (by simp)
  · rw [if_neg h1] at he
    by_cases h2 : digitsOf (cpf.take (toInt32 (strlen cpf)).toNat) = []
    · rw [if_pos h2] at he
      exact absurd he (by simp)
    · rw [if_neg h2] at he
      have hid : cstr treated = digitsOf (cpf.take (toInt32 (strlen cpf)).toNat) :=
        Option.some.inj he
      have hl1 := digitsOf_length_le (cpf.take (toInt32 (strlen cpf)).toNat)
      have hl2 : (cpf.take (toInt32 (strlen cpf)).toNat).length ≤ 127 := by
        rw [List.length_take]; omega
      have hpos := List.length_pos.mpr h2
      unfold strlen
      rw [hid]
      simp only [MAX_SIZE_CPF]
      refine ⟨by omega, by omega, ?_⟩
      intro c hc
      unfold digitsOf at hc
      exact (isDigit_iff c).mp (List.mem_filter.mp hc).2

/-- The composed URL for an identifier left by `treatCpf`: bounds of the
identifier, of the composed length, and content of `completeUrl`. -/
theorem completeUrl_of_treatCpf (cpf buf treated completeUrl : List Nat)
    (hbuf : buf.length = MAX_SIZE_CPF) (hurl : completeUrl.length = MAX_SIZE_URL)
    (h : treatCpf cpf buf = some treated) :
    (1 ≤ strlen treated ∧ strlen treated ≤ MAX_SIZE_CPF - 1 ∧
      ∀ c ∈ cstr treated, 48 ≤ c ∧ c ≤ 57) ∧
    SERPRO_URL.length + strlen treated + 1 ≤ MAX_SIZE_URL ∧
    (strcat (strcpy completeUrl SERPRO_URL) treated).length = MAX_SIZE_URL ∧
    cstr (strcat (strcpy completeUrl SERPRO_URL) treated) = SERPRO_URL ++ cstr treated := by
  have hb := treatCpf_result_bounds cpf buf treated (le_of_eq hbuf.symm) h
  have hs : cstr SERPRO_URL = SERPRO_URL := by decide
  have hl : SERPRO_URL.length = 62 := by decide
  have hsl : strlen SERPRO_URL = 62 := by decide
  simp only [MAX_SIZE_CPF, MAX_SIZE_URL] at hb hurl ⊢
  obtain ⟨hb1, hb2, hb3⟩ := hb
  have hc := strcat_strcpy completeUrl SERPRO_URL treated (by omega)
  rw [hs] at hc
  exact ⟨⟨hb1, hb2, hb3⟩, by omega, by omega, hc.2⟩

/-- The URL buffer passed to `CURLOPT_URL` by `validateCpf` is the composition
of `SERPRO_URL` and the identifier left by `treatCpf`. -/
theorem validateCpf_url (st : Statics) (t : Transport) (cpf url : List Nat)
    (h : CurlOp.easy_setopt_url url ∈ (validateCpf st t cpf).ops) :
    ∃ treated, treatCpf cpf (mkBuf MAX_SIZE_CPF t.treatedCpfInit) = some treated ∧
      url = strcat (strcpy (mkBuf MAX_SIZE_URL t.completeUrlInit) SERPRO_URL) treated := by
  unfold validateCpf at h
  cases htc : treatCpf cpf (mkBuf MAX_SIZE_CPF t.treatedCpfInit) with
  | none => rw [htc] at h; simp at h
  | some treated =>
    rw [htc] at h
    refine ⟨treated, rfl, ?_⟩
    simp only at h
    generalize strcat (strcpy (mkBuf MAX_SIZE_URL t.completeUrlInit) SERPRO_URL) treated = U
      at h ⊢
    generalize treatResponseData _ = code at h
    obtain ⟨g, c⟩ := st
    by_cases hg : g = false ∧ t.global_init ≠ 0
    · rw [if_pos hg] at h
      simp at h
    · rw [if_neg hg] at h
      by_cases hc : c = false ∧ t.easy_init = false
      · rw [if_pos hc] at h
        cases g <;> simp at h
      · rw [if_neg hc] at h
        by_cases hw : t.easy_setopt .WRITEFUNCTION = false
        · rw [if_pos hw] at h
          cases g <;> cases c <;> simp at h
        · rw [if_neg hw] at h
          by_cases hd : t.easy_setopt .WRITEDATA = false
          · rw [if_pos hd] at h
            cases g <;> cases c <;> simp at h
          · rw [if_neg hd] at h
            by_cases hu : t.easy_setopt .URL = false
            · rw [if_pos hu] at h
              cases g <;> cases c <;> simp at h <;> exact h
            · rw [if_neg hu] at h
              by_cases hi : t.easy_getinfo = false
              · rw [if_pos hi] at h
                cases g <;> cases c <;> cases t.slist_append <;> simp at h <;> exact h
              · rw [if_neg hi] at h
                by_cases hk : convertHttpCode t.response_code ≠ CODE_200_CPF_OK
                · rw [if_pos hk] at h
                  cases g <;> cases c <;> cases t.slist_append <;> simp at h <;> exact h
                · rw [if_neg hk] at h
                  cases g <;> cases c <;> cases t.slist_append <;> simp at h <;> exact h

/-- C14: for every identifier that `treatCpf` produces, digits only and of
length 1 to `MAX_SIZE_CPF-1`, the length of `SERPRO_URL` followed by the
identifier, plus the terminator, is at most `MAX_SIZE_URL`; the `strcpy` and
`strcat` of `validateCpf` stay inside `completeUrl`, whatever it held before,
and leave in it exactly `SERPRO_URL` followed by the identifier. Every URL that
`validateCpf` hands to `CURLOPT_URL` is such a composition. -/
theorem completeUrl_within_bounds :
    (∀ (cpf buf treated completeUrl : List Nat), buf.length = MAX_SIZE_CPF →
      completeUrl.length = MAX_SIZE_URL → treatCpf cpf buf = some treated →
      (1 ≤ strlen treated ∧ strlen treated ≤ MAX_SIZE_CPF - 1 ∧
        ∀ c ∈ cstr treated, 48 ≤ c ∧ c ≤ 57) ∧
      SERPRO_URL.length + strlen treated + 1 ≤ MAX_SIZE_URL ∧
      (strcat (strcpy completeUrl SERPRO_URL) treated).length = MAX_SIZE_URL ∧
      cstr (strcat (strcpy completeUrl SERPRO_URL) treated) = SERPRO_URL ++ cstr treated) ∧
    (∀ (st : Statics) (t : Transport) (cpf url : List Nat),
      CurlOp.easy_setopt_url url ∈ (validateCpf st t cpf).ops →
      url.length = MAX_SIZE_URL ∧
      ∃ id : List Nat, cstr url = SERPRO_URL ++ id ∧ 1 ≤ id.length ∧
        id.length ≤ MAX_SIZE_CPF - 1 ∧ ∀ c ∈ id, 48 ≤ c ∧ c ≤ 57) := by
  refine ⟨completeUrl_of_treatCpf, ?_⟩
  intro st t cpf url h
  obtain ⟨treated, htc, hu⟩ := validateCpf_url st t cpf url h
  obtain ⟨⟨h1, h2, h3⟩, _, h5, h6⟩ := completeUrl_of_treatCpf cpf
    (mkBuf MAX_SIZE_CPF t.treatedCpfInit) treated (mkBuf MAX_SIZE_URL t.completeUrlInit)
    (mkBuf_length _ _) (mkBuf_length _ _) htc
  rw [hu]
  exact ⟨h5, cstr treated, h6, h1, h2, h3⟩

/-- C14, at the raw input `1a2`, with arrays full of the bytes 7 and 9. -/
theorem completeUrl_within_bounds_witness :
    (strcat (strcpy (mkBuf MAX_SIZE_URL (fun _ => 9)) SERPRO_URL)
        ((treatCpf [49, 97, 50] (mkBuf MAX_SIZE_CPF (fun _ => 7))).getD [])).length
      = MAX_SIZE_URL ∧
    cstr (strcat (strcpy (mkBuf MAX_SIZE_URL (fun _ => 9)) SERPRO_URL)
        ((treatCpf [49, 97, 50] (mkBuf MAX_SIZE_CPF (fun _ => 7))).getD []))
      = SERPRO_URL ++ cstr ((treatCpf [49, 97, 50] (mkBuf MAX_SIZE_CPF (fun _ => 7))).getD []) :=
  (completeUrl_within_bounds.1 [49, 97, 50] (mkBuf MAX_SIZE_CPF (fun _ => 7))
    ((treatCpf [49, 97, 50] (mkBuf MAX_SIZE_CPF (fun _ => 7))).getD [])
    (mkBuf MAX_SIZE_URL (fun _ => 9)) (mkBuf_length _ _) (mkBuf_length _ _) (by decide)).2.2

/-! ## Captured body: claims C16 and C20 -/

/-- An empty `curlOutput` at the start of the call and no chunk delivered: the
captured body is the empty string and the extractor returns 500. -/
theorem treatResponseData_empty_capture (t : Transport) (h0 : t.curlOutputInit 0 = 0)
    (hc : t.chunks = []) : treatResponseData (capturedBody t) = 500 := by
  have hb : capturedBody t = 0 :: (List.range 1023).map (fun i => t.curlOutputInit (i + 1)) := by
    unfold capturedBody performWrites mkBuf MAX_SIZE_RESPONSE_JSON
    rw [hc, List.foldl_nil, List.range_succ_eq_map, List.map_cons, h0, List.map_map]
    rfl
  have ha : Absent MARKER (cstr (capturedBody t)) := by
    rw [hb, cstr_cons_zero]
    intro i hp
    rw [List.drop_nil] at hp
    exact absurd (List.prefix_nil.mp hp) (by decide)
  unfold treatResponseData
  rw [treatResponseDataTrace_of_absent _ ha]
  rfl

/-- C16, at the failing input: on the raw input `1`, with `curlOutput` still
holding `codigo":"0"` from the stack, remote status 200 and no body byte
delivered, `validateCpf` returns 200, not 500; and when the body `codigo":"1"`
is delivered, it is appended to the stale text and `validateCpf` returns 200,
while the extractor applied to that body alone gives 403. -/
theorem validateCpf_reads_stale_buffer :
    (staleTransport []).chunks = [] ∧
    (validateCpf ⟨false, false⟩ (staleTransport []) [49]).code = 200 ∧
    (validateCpf ⟨false, false⟩ (staleTransport [chunkOf (bytes "codigo\":\"1\"")]) [49]).code
      = 200 ∧
    treatResponseData (bytes "codigo\":\"1\"") = 403 := by
  refine ⟨rfl, ?_, ?_, by decide⟩
  · rw [validateCpf_code_eq]; decide
  · rw [validateCpf_code_eq]; decide

/-- One call of `validateCpf` and the flag `global`: a set flag stays set and
suppresses `curl_global_init`; the call is made at most once; when it is made,
the flag is set exactly if it succeeded; the flag is set by nothing else. -/
theorem validateCpf_global_step (st : Statics) (t : Transport) (cpf : List Nat) :
    (st.global = true → (validateCpf st t cpf).statics.global = true ∧
      CurlOp.global_init ∉ (validateCpf st t cpf).ops) ∧
    (validateCpf st t cpf).ops.count CurlOp.global_init ≤ 1 ∧
    (CurlOp.global_init ∈ (validateCpf st t cpf).ops →
      ((validateCpf st t cpf).statics.global = true ↔ t.global_init = 0)) ∧
    ((validateCpf st t cpf).statics.global = true → st.global = false →
      CurlOp.global_init ∈ (validateCpf st t cpf).ops) := by
  unfold validateCpf
  cases htc : treatCpf cpf (mkBuf MAX_SIZE_CPF t.treatedCpfInit) with
  | none => simp
  | some treated =>
    simp only
    generalize strcat (strcpy (mkBuf MAX_SIZE_URL t.completeUrlInit) SERPRO_URL) treated = U
    generalize treatResponseData _ = code
    obtain ⟨g, c⟩ := st
    by_cases hg : g = false ∧ t.global_init ≠ 0
    · rw [if_pos hg]
      obtain ⟨hg1, hg2⟩ := hg
      simp [hg1, hg2]
    · rw [if_neg hg]
      have hz : g = false → t.global_init = 0 := by
        intro h; by_contra hne; exact hg ⟨h, hne⟩
      by_cases hc : c = false ∧ t.easy_init = false
      · rw [if_pos hc]
        cases g
        · simp [hz rfl]
        · simp
      · rw [if_neg hc]
        by_cases hw : t.easy_setopt .WRITEFUNCTION = false
        · rw [if_pos hw]
          cases g <;> cases c <;> simp_all
        · rw [if_neg hw]
          by_cases hd : t.easy_setopt .WRITEDATA = false
          · rw [if_pos hd]
            cases g <;> cases c <;> simp_all
          · rw [if_neg hd]
            by_cases hu : t.easy_setopt .URL = false
            · rw [if_pos hu]
              cases g <;> cases c <;> simp_all
            · rw [if_neg hu]
              by_cases hi : t.easy_getinfo = false
              · rw [if_pos hi]
                cases g <;> cases c <;> cases t.slist_append <;> simp_all
              · rw [if_neg hi]
                by_cases hk : convertHttpCode t.response_code ≠ CODE_200_CPF_OK
                · rw [if_pos hk]
                  cases g <;> cases c <;> cases t.slist_append <;> simp_all
                · rw [if_neg hk]
                  cases g <;> cases c <;> cases t.slist_append <;> simp_all

theorem validateCpf_invalid_untouched (st : Statics) (t : Transport) (cpf : List Nat)
    (h : treatCpf cpf (mkBuf MAX_SIZE_CPF t.treatedCpfInit) = none) :
    (validateCpf st t cpf).ops = [] ∧ (validateCpf st t cpf).statics = st := by
  rw [validateCpf_of_none st t cpf h]
  exact ⟨rfl, rfl⟩

/-- Once the flag `global` is set, every later call of a run leaves it set and
does not invoke `curl_global_init`. -/
theorem runCalls_global_set (calls : List (Transport × List Nat)) :
    ∀ st : Statics, st.global = true →
      ∀ o ∈ runCalls st calls, o.statics.global = true ∧ CurlOp.global_init ∉ o.ops := by
  induction calls with
  | nil => intro st _ o ho; simp [runCalls] at ho
  | cons call rest ih =>
    obtain ⟨t, cpf⟩ := call
    intro st hst o ho
    have hstep := (validateCpf_global_step st t cpf).1 hst
    simp only [runCalls, List.mem_cons] at ho
    rcases ho with h | h
    · rw [h]; exact hstep
    · exact ih _ hstep.1 o h

theorem runCalls_after_set (calls : List (Transport × List Nat)) :
    ∀ (st : Statics) (pre : List Outcome) (o : Outcome) (post : List Outcome),
      runCalls st calls = pre ++ o :: post → o.statics.global = true →
      ∀ o2 ∈ post, CurlOp.global_init ∉ o2.ops ∧ o2.statics.global = true := by
  induction calls with
  | nil =>
    intro st pre o post h
    simp [runCalls] at h
  | cons call rest ih =>
    obtain ⟨t, cpf⟩ := call
    intro st pre o post h ho o2 ho2
    simp only [runCalls] at h
    cases pre with
    | nil =>
      rw [List.nil_append] at h
      obtain ⟨h1, h2⟩ := List.cons.inj h
      rw [← h1] at ho
      rw [← h2] at ho2
      exact (runCalls_global_set rest _ ho o2 ho2).symm
    | cons p pre2 =>
      rw [List.cons_append] at h
      obtain ⟨_, h2⟩ := List.cons.inj h
      exact ih _ pre2 o post h2 ho o2 ho2

theorem runCalls_no_init_of_set (calls : List (Transport × List Nat)) (st : Statics)
    (hst : st.global = true) : (runCalls st calls).countP initSucceeded = 0 := by
  rw [List.countP_eq_zero]
  intro o ho
  have := (runCalls_global_set calls st hst o ho).2
  simp [initSucceeded, this]

theorem runCalls_init_count (calls : List (Transport × List Nat)) :
    ∀ st : Statics, (runCalls st calls).countP initSucceeded ≤ 1 := by
  induction calls with
  | nil => intro st; simp [runCalls]
  | cons call rest ih =>
    obtain ⟨t, cpf⟩ := call
    intro st
    simp only [runCalls, List.countP_cons]
    by_cases hs : initSucceeded (validateCpf st t cpf) = true
    · have hflag : (validateCpf st t cpf).statics.global = true := by
        unfold initSucceeded at hs
        simp only [Bool.and_eq_true] at hs
        exact hs.2
      rw [runCalls_no_init_of_set rest _ hflag, if_pos hs]
    · rw [if_neg hs]
      exact ih _

/-- C19: over any sequential run of calls of `validateCpf`, at most one call
makes a successful `curl_global_init`; once the flag `global` is set, no later
call invokes `curl_global_init` and every later call leaves the flag set; a call
that invokes it sets the flag exactly when the initialization succeeded, and
invokes it once; a call whose input fails sanitization invokes nothing and
leaves the `static` variables as they were. -/
theorem global_init_at_most_once :
    (∀ (st : Statics) (calls : List (Transport × List Nat)),
      (runCalls st calls).countP initSucceeded ≤ 1) ∧
    (∀ (st : Statics) (calls : List (Transport × List Nat)) (pre : List Outcome)
      (o : Outcome) (post : List Outcome),
      runCalls st calls = pre ++ o :: post → o.statics.global = true →
      ∀ o2 ∈ post, CurlOp.global_init ∉ o2.ops ∧ o2.statics.global = true) ∧
    (∀ (st : Statics) (t : Transport) (cpf : List Nat),
      (validateCpf st t cpf).ops.count CurlOp.global_init ≤ 1 ∧
      (CurlOp.global_init ∈ (validateCpf st t cpf).ops →
        ((validateCpf st t cpf).statics.global = true ↔ t.global_init = 0))) ∧
    (∀ (st : Statics) (t : Transport) (cpf : List Nat),
      treatCpf cpf (mkBuf MAX_SIZE_CPF t.treatedCpfInit) = none →
      (validateCpf st t cpf).ops = [] ∧ (validateCpf st t cpf).statics = st) := by
  refine ⟨fun st calls => runCalls_init_count calls st,
    fun st calls => runCalls_after_set calls st, ?_, validateCpf_invalid_untouched⟩
  intro st t cpf
  exact ⟨(validateCpf_global_step st t cpf).2.1, (validateCpf_global_step st t cpf).2.2.1⟩

/-- C19, at the run of two calls on the raw input `1` from a fresh process: the
second call does not invoke `curl_global_init`; and at a call on the empty input. -/
theorem global_init_at_most_once_witness :
    (CurlOp.global_init ∉
        (validateCpf (validateCpf ⟨false, false⟩ (okTransport 200 []) [49]).statics
          (okTransport 200 []) [49]).ops ∧
      (validateCpf (validateCpf ⟨false, false⟩ (okTransport 200 []) [49]).statics
          (okTransport 200 []) [49]).statics.global = true) ∧
    (validateCpf ⟨false, false⟩ (okTransport 200 []) []).ops = [] :=
  ⟨global_init_at_most_once.2.1 ⟨false, false⟩
      [(okTransport 200 [], [49]), (okTransport 200 [], [49])] []
      (validateCpf ⟨false, false⟩ (okTransport 200 []) [49])
      [validateCpf (validateCpf ⟨false, false⟩ (okTransport 200 []) [49]).statics
        (okTransport 200 []) [49]]
      rfl (by decide) _ (List.mem_singleton_self _),
   (global_init_at_most_once.2.2.2 ⟨false, false⟩ (okTransport 200 []) [] (by decide)).1⟩

end Middleware
